import Mathlib

/-!
A verification development for the advancement/fundraising data-cleaning
pipeline (`clean_advancement_data.py`).  The pipeline's data model and
operations are shallowly embedded: a pandas `DataFrame` becomes a `DF`
(a list of column names plus a list of association-list rows), cell
values become the inductive `Value` type, and each cleaning function of
the source is translated into an executable Lean definition of the same
name.  Theorems at the end of the file settle the specification claims.
-/

namespace AdvClean

/-! ## Character and string primitives (ASCII model of Python's `str`) -/

/-- The whitespace characters stripped by Python's `str.strip` (ASCII model:
space, tab, newline, carriage return, vertical tab, form feed). -/
def isPySpace (c : Char) : Bool :=
  decide (c.toNat = 32 ∨ c.toNat = 9 ∨ c.toNat = 10 ∨ c.toNat = 13 ∨
    c.toNat = 11 ∨ c.toNat = 12)

/-- ASCII lowercase test (`[a-z]` of the source's regexes). -/
def isAsciiLower (c : Char) : Bool := decide (97 ≤ c.toNat ∧ c.toNat ≤ 122)

/-- ASCII uppercase test (`[A-Z]` of the source's regexes). -/
def isAsciiUpper (c : Char) : Bool := decide (65 ≤ c.toNat ∧ c.toNat ≤ 90)

/-- ASCII case folding to uppercase, the model of Python's `str.upper`
(the pipeline's column names are ASCII). -/
def asciiUpperChar (c : Char) : Char :=
  if isAsciiLower c then Char.ofNat (c.toNat - 32) else c

/-- `Python str.strip`: drop leading and trailing whitespace. -/
def pyStripL (l : List Char) : List Char :=
  ((l.dropWhile isPySpace).reverse.dropWhile isPySpace).reverse

/-- `str.strip` on strings. -/
def pyStrip (s : String) : String := ⟨pyStripL s.data⟩

/-- `.replace(" ", "_")` acting on one character. -/
def spaceToU (c : Char) : Char := if c = ' ' then '_' else c

/-- `re.sub(r"([a-z])([A-Z])", r"\1_\2", name)`: insert an underscore at
every lower-to-upper boundary.  The regex's non-overlapping scan agrees
with this pairwise recursion because the right character of a match is
uppercase and hence can never be the left character of another match. -/
def camelSub : List Char → List Char
  | [] => []
  | [a] => [a]
  | a :: b :: rest =>
    if isAsciiLower a && isAsciiUpper b then a :: '_' :: camelSub (b :: rest)
    else a :: camelSub (b :: rest)

/-- `re.sub(r"_+", "_", name)`: collapse runs of underscores. -/
def collapseU : List Char → List Char
  | [] => []
  | [a] => [a]
  | a :: b :: rest =>
    if a = '_' && b = '_' then collapseU (b :: rest)
    else a :: collapseU (b :: rest)

/-- The list-level body of `to_upper_snake_case`: strip, replace spaces
with underscores, split camelCase, collapse underscores, uppercase. -/
def upSnake (l : List Char) : List Char :=
  (collapseU (camelSub ((pyStripL l).map spaceToU))).map asciiUpperChar

/-- `to_upper_snake_case` from `clean_advancement_data.py`. -/
def to_upper_snake_case (s : String) : String := ⟨upSnake s.data⟩

/-! ## Substring search (model of Python's `in` on strings) -/

/-- `startsWithL n h`: the list `h` starts with `n`. -/
def startsWithL : List Char → List Char → Bool
  | [], _ => true
  | _ :: _, [] => false
  | a :: as, b :: bs => a = b && startsWithL as bs

/-- `hasSub n h`: `n` occurs as a contiguous sublist of `h`
(Python's `n in h` for strings). -/
def hasSub (n : List Char) : List Char → Bool
  | [] => startsWithL n []
  | b :: bs => startsWithL n (b :: bs) || hasSub n bs

/-- `endsWithL n h`: the list `h` ends with `n`. -/
def endsWithL (n h : List Char) : Bool := startsWithL n.reverse h.reverse

/-- Uppercase a whole string (model of `str.upper`). -/
def asciiUpperStr (s : String) : String := ⟨s.data.map asciiUpperChar⟩

/-- `pattern.upper() in col.upper()`: case-insensitive substring test. -/
def hasSubCI (pat col : String) : Bool :=
  hasSub (asciiUpperStr pat).data (asciiUpperStr col).data

/-- No two adjacent underscores (the normal form produced by `collapseU`). -/
def noDD : List Char → Prop
  | a :: b :: rest => ¬(a = '_' ∧ b = '_') ∧ noDD (b :: rest)
  | _ => True

/-- Both ends of the list (when present) are non-whitespace, so `str.strip`
leaves it unchanged. -/
def endsOK (l : List Char) : Prop :=
  (∀ c, l.head? = some c → isPySpace c = false) ∧
  (∀ c, l.getLast? = some c → isPySpace c = false)

/-! ## Data model: cell values, rows, data frames -/

/-- A cell value of a loaded table: object-dtype strings, float64 numbers
(modelled as rationals), datetime values (modelled by an encoded `Nat`),
booleans, and the missing marker (`NaN`/`NaT`/`None`). -/
inductive Value : Type
  | str (s : String)
  | num (q : Rat)
  | date (d : Nat)
  | bool (b : Bool)
  | null
deriving DecidableEq, Repr

/-- A row: an association list from column label to cell value, aligned
with the frame's column list. -/
abbrev Row : Type := List (String × Value)

/-- A `pandas.DataFrame`: ordered column labels plus ordered rows. -/
structure DF where
  cols : List String
  rows : List Row
deriving DecidableEq, Repr

/-- The cell of row `r` in column `c` (the first matching entry). -/
def Row.get (r : Row) (c : String) : Option Value :=
  (r.find? (fun p => decide (p.1 = c))).map (fun p => p.2)

/-- Apply `f` to the cells of column `c` in a row. -/
def Row.mapCell (c : String) (f : Value → Value) (r : Row) : Row :=
  r.map (fun p => if p.1 = c then (p.1, f p.2) else p)

/-- The column labels carried by a row. -/
def Row.keys (r : Row) : List String := r.map Prod.fst

/-- Keep only the entries of the columns satisfying `keep`. -/
def Row.filterCols (keep : String → Bool) (r : Row) : Row :=
  r.filter (fun p => keep p.1)

/-- Well-formed frame: every row's labels agree with the column list. -/
def DF.wf (df : DF) : Prop := ∀ r ∈ df.rows, Row.keys r = df.cols

instance (df : DF) : Decidable df.wf := by unfold DF.wf; infer_instance

/-- Apply `f` to every cell of column `c` (`df[c] = df[c].apply(f)`). -/
def mapColumn (df : DF) (c : String) (f : Value → Value) : DF :=
  { cols := df.cols, rows := df.rows.map (Row.mapCell c f) }

/-- The sequence of cells of column `c` (`df[c]`). -/
def colVals (df : DF) (c : String) : List (Option Value) :=
  df.rows.map (fun r => Row.get r c)

/-- Is this cell the missing marker? -/
def Value.isNull : Value → Bool
  | .null => true
  | _ => false

/-- `pandas.notna` of one cell; a label absent from the row counts as
missing. -/
def notNA : Option Value → Bool
  | some v => !v.isNull
  | none => false

/-- A cell in the state guaranteed for identifier columns: a string with
no surrounding whitespace. -/
def cleanVal (v : Value) : Prop := ∃ s, v = .str s ∧ pyStrip s = s

/-! ## Static configuration of `clean_advancement_data.py` -/

/-- `ID_CODE_COLUMNS`: identifier/code columns always kept as strings. -/
def ID_CODE_COLUMNS : List String :=
  ["ID_NUM", "DONOR_ID", "CAMPAIGN_CDE", "SOLICIT_CDE", "GIFT_GROUP_NUM",
   "GIFT_NUM", "GIFT_TRAN_NUM", "APPID", "CAT_COMP_1", "CAT_COMP_2"]

/-- `METADATA_COLUMNS_TO_DROP`: technical metadata columns. -/
def METADATA_COLUMNS_TO_DROP : List String :=
  ["USER_NAME", "JOB_NAME", "JOB_TIME", "APPROWVERSION"]

/-- `NATURAL_KEYS`: the declared natural key of each source table. -/
def NATURAL_KEYS : List (String × List String) :=
  [("alumni_master", ["ID_NUM"]),
   ("campaign", ["CAMPAIGN_CDE"]),
   ("donor_camp_sum", ["ID_NUM", "CAMPAIGN_CDE", "YR_CDE", "YEAR_TYPE"]),
   ("donor_master", ["ID_NUM"]),
   ("donor_year_sum", ["ID_NUM", "YR_CDE", "YEAR_TYPE"]),
   ("gift_category", ["APPID", "CAT_COMP_1", "CAT_COMP_2"]),
   ("gift_master", ["GIFT_GROUP_NUM", "GIFT_NUM"]),
   ("gift_tran", ["GIFT_GROUP_NUM", "GIFT_NUM", "GIFT_TRAN_NUM"]),
   ("name_master", ["ID_NUM"]),
   ("solicit_def", ["SOLICIT_CDE"])]

/-- Dictionary lookup in `NATURAL_KEYS`. -/
def lookupNK (table_name : String) : Option (List String) :=
  (NATURAL_KEYS.find? (fun p => decide (p.1 = table_name))).map (fun p => p.2)

/-- The process-wide `parsing_issues` dict (issue kind to message list),
threaded explicitly instead of the source's module-global. -/
abbrev IssueLog := List (String × List String)

/-- Append one message under `kind`
(`parsing_issues[kind].append(msg)`, creating the bucket if absent). -/
def appendIssue : IssueLog → String → String → IssueLog
  | [], kind, msg => [(kind, [msg])]
  | (k, msgs) :: rest, kind, msg =>
    if k = kind then (k, msgs ++ [msg]) :: rest
    else (k, msgs) :: appendIssue rest kind msg

/-- The messages recorded under `kind`. -/
def bucket (log : IssueLog) (kind : String) : List String :=
  ((log.find? (fun p => decide (p.1 = kind))).map (fun p => p.2)).getD []

/-! ## Helper functions of the cleaning pipeline -/

/-- `standardize_column_names`: canonicalize every column label
(`df.columns = [to_upper_snake_case(col) for col in df.columns]`; the
rows' labels are renamed with their columns). -/
def standardize_column_names (df : DF) : DF :=
  { cols := df.cols.map to_upper_snake_case,
    rows := df.rows.map (fun r => r.map (fun p => (to_upper_snake_case p.1, p.2))) }

/-- One cell of `strip_string_columns`: a `str` cell is stripped, any
other cell is untouched (the source's `isinstance(x, str)` test; the
`dtype == "object"` guard only skips columns that cannot hold `str`
cells, so the per-cell rule is extensionally the same). -/
def stripCell : Value → Value
  | .str s => .str (pyStrip s)
  | v => v

/-- `strip_string_columns`. -/
def strip_string_columns (df : DF) : DF :=
  { cols := df.cols,
    rows := df.rows.map (fun r => r.map (fun p => (p.1, stripCell p.2))) }

/-- Python's `str()` of a cell, as used by `astype(str)`.  A missing value
prints as `"nan"` (`str(float("nan"))`); the numeric/date/boolean
renderings are approximations that the pipeline never exercises, since
identifier columns hold strings or missing values when `astype(str)`
runs (they are loaded with `dtype=str`). -/
def pyStr : Value → String
  | .str s => s
  | .null => "nan"
  | .num q => toString q
  | .date d => toString d
  | .bool b => if b then "True" else "False"

/-- One cell of `ensure_string_dtype`: `astype(str)`, `.str.strip()`, then
`.replace("nan", "")` (a whole-cell comparison in `Series.replace`). -/
def idClean (v : Value) : Value :=
  if pyStrip (pyStr v) = "nan" then .str "" else .str (pyStrip (pyStr v))

/-- `ensure_string_dtype`: coerce each listed column that is present to
stripped strings with missing values becoming `""`. -/
def ensure_string_dtype (df : DF) (columns : List String) : DF :=
  columns.foldl (fun d c => if c ∈ d.cols then mapColumn d c idClean else d) df

/-- Is every cell of column `c` missing? -/
def allNA (df : DF) (c : String) : Bool :=
  df.rows.all (fun r => !notNA (Row.get r c))

/-- `drop_all_null_columns`: `df.dropna(axis=1, how="all")`. -/
def drop_all_null_columns (df : DF) : DF :=
  { cols := df.cols.filter (fun c => !allNA df c),
    rows := df.rows.map (Row.filterCols (fun c => !allNA df c)) }

/-- `drop_metadata_columns`: drop the listed columns that exist. -/
def drop_metadata_columns (df : DF) (columns_to_drop : List String) : DF :=
  { cols := df.cols.filter (fun c => !columns_to_drop.contains c),
    rows := df.rows.map (Row.filterCols (fun c => !columns_to_drop.contains c)) }

/-- The tuple of key cells of a row (`drop_duplicates` compares these;
pandas treats two `NaN` keys as equal there, as does `Option` equality). -/
def keyProj (keys : List String) (r : Row) : List (Option Value) :=
  keys.map (fun k => Row.get r k)

/-- Row selection of `drop_duplicates(subset=keys, keep="first")`: keep a
row when its key tuple has not been seen among the rows already kept. -/
def dropDupAux (keys : List String) :
    List (List (Option Value)) → List Row → List Row
  | _, [] => []
  | seen, r :: rs =>
    if keyProj keys r ∈ seen then dropDupAux keys seen rs
    else r :: dropDupAux keys (keyProj keys r :: seen) rs

/-- `drop_duplicates` when the subset columns are known to be present. -/
def dropDupTotal (df : DF) (keys : List String) : DF :=
  { cols := df.cols, rows := dropDupAux keys [] df.rows }

/-- `DataFrame.drop_duplicates(subset=keys, keep="first")`; pandas raises
`KeyError` when a subset column is absent. -/
def drop_duplicates (df : DF) (keys : List String) : Except String DF :=
  if keys.all (fun k => decide (k ∈ df.cols)) then Except.ok (dropDupTotal df keys)
  else Except.error "KeyError: drop_duplicates subset"

/-- `deduplicate_by_key`: dedup on `existing_keys`, the declared key
columns actually present in the frame; unchanged when none of them are. -/
def deduplicate_by_key (df : DF) (key_columns : List String) : DF :=
  if key_columns.filter (fun c => decide (c ∈ df.cols)) ≠ [] then
    dropDupTotal df (key_columns.filter (fun c => decide (c ∈ df.cols)))
  else df

/-- Steps 1-5 of `apply_global_cleanup` (the source's `d1` ... `d5`):
standardize names, strip strings, coerce identifier columns to strings,
drop all-null columns, drop metadata columns. -/
def cleaned_before_dedup (df : DF) : DF :=
  drop_metadata_columns
    (drop_all_null_columns
      (ensure_string_dtype (strip_string_columns (standardize_column_names df))
        ID_CODE_COLUMNS))
    METADATA_COLUMNS_TO_DROP

/-- `apply_global_cleanup`: the six ordered cleanup steps; step 6
deduplicates on the declared natural key when `table_name` has one. -/
def apply_global_cleanup (df : DF) (table_name : String) : DF :=
  match lookupNK table_name with
  | some keys => deduplicate_by_key (cleaned_before_dedup df) keys
  | none => cleaned_before_dedup df

/-! ## Date parsing -/

/-- The `explicit_date_cols` list of `parse_date_columns`. -/
def explicit_date_cols : List String :=
  ["GIFT_DTE", "MATURITY_DTE", "FIRST_GIFT_DTE", "LAST_GIFT_DTE",
   "LARGEST_GIFT_DTE", "SMALLEST_GIFT_DTE", "CAMP_START_DATE",
   "CAMP_END_DATE", "VALID_UNTIL_DTE", "ACK_DATE", "EXPIRE_DTE",
   "LAST_UPDATE_DTE", "LAST_VISIT_DTE", "NEXT_VISIT_DTE", "REASON_DTE",
   "UDEF_DTE_1", "UDEF_DTE_2", "UDEF_DTE_3", "USER_DEF_DTE_1",
   "USER_DEF_DTE_2", "USER_DEF_DTE_3"]

/-- `date_pattern.search(col) is not None or col in explicit_date_cols`
for `date_pattern = re.compile(r"(_DTE$|DATE|DTE)", re.IGNORECASE)`. -/
def shouldParseDate (c : String) : Bool :=
  endsWithL (asciiUpperStr "_DTE").data (asciiUpperStr c).data ||
  hasSubCI "DATE" c || hasSubCI "DTE" c || explicit_date_cols.contains c

/-- ISO `YYYY-MM-DD` reading; the model of what
`pd.to_datetime(format="mixed")` accepts, restricted to the shape of this
pipeline's date strings.  Anything else is unparseable. -/
def parseDateStr (s : String) : Option Nat :=
  match s.data with
  | [y1, y2, y3, y4, '-', m1, m2, '-', d1, d2] =>
    if y1.isDigit && y2.isDigit && y3.isDigit && y4.isDigit &&
       m1.isDigit && m2.isDigit && d1.isDigit && d2.isDigit then
      let y := ((y1.toNat - 48) * 1000 + (y2.toNat - 48) * 100 +
        (y3.toNat - 48) * 10 + (y4.toNat - 48))
      let m := (m1.toNat - 48) * 10 + (m2.toNat - 48)
      let d := (d1.toNat - 48) * 10 + (d2.toNat - 48)
      if 1 ≤ m && m ≤ 12 && 1 ≤ d && d ≤ 31 then
        some (y * 10000 + m * 100 + d)
      else none
    else none
  | _ => none

/-- One cell under `pd.to_datetime(..., format="mixed", errors="coerce")`:
dates pass through, parseable strings become dates, and anything else —
in particular every unparseable string — silently becomes `NaT` (`null`).
With `errors="coerce"` a bad element never raises. -/
def dateCoerce : Value → Value
  | .date d => .date d
  | .str s =>
    match parseDateStr s with
    | some d => .date d
    | none => .null
  | _ => .null

/-- `parse_date_columns`.  Because `errors="coerce"` converts bad elements
without raising, the `except` branch that would append a column name under
`"date_parsing"` is unreachable, and the issue log passes through
unchanged. -/
def parse_date_columns (df : DF) (log : IssueLog) : DF × IssueLog :=
  (df.cols.foldl
    (fun d c => if shouldParseDate c then mapColumn d c dateCoerce else d) df,
   log)

/-! ## Numeric conversion -/

/-- The numeral denoted by a list of ASCII digits. -/
def digitsToNat (l : List Char) : Nat :=
  l.foldl (fun acc c => acc * 10 + (c.toNat - 48)) 0

/-- Decimal reading of a string, the model of `pd.to_numeric` on the
pipeline's string cells: optional surrounding whitespace, optional sign,
digits with an optional fractional part (scientific notation does not
occur in the modelled data). -/
def parseNumStr (s : String) : Option Rat :=
  let l := pyStripL s.data
  let sb : Rat × List Char :=
    match l with
    | '-' :: rest => (-1, rest)
    | '+' :: rest => (1, rest)
    | _ => (1, l)
  let intPart := sb.2.takeWhile Char.isDigit
  let rest := sb.2.dropWhile Char.isDigit
  match rest with
  | [] =>
    if intPart.isEmpty then none
    else some (sb.1 * (digitsToNat intPart : Rat))
  | '.' :: frac =>
    if frac.all Char.isDigit && !(intPart.isEmpty && frac.isEmpty) then
      some (sb.1 * ((digitsToNat intPart : Rat) +
        (digitsToNat frac : Rat) / ((10 : Rat) ^ frac.length)))
    else none
  | _ => none

/-- One cell under `pd.to_numeric(..., errors="coerce")`: numbers stay,
booleans become 1/0, parseable strings become numbers, and anything else
becomes `NaN` (`null`). -/
def numCoerce : Value → Value
  | .num q => .num q
  | .bool b => .num (if b then 1 else 0)
  | .str s =>
    match parseNumStr s with
    | some q => .num q
    | none => .null
  | _ => .null

/-- Does `convert_numeric_columns` coerce this column?  The source loops
over `include_patterns` and, once inside a matching pattern, skips
(`continue`) when the column is in `ID_CODE_COLUMNS`; since that test does
not depend on the pattern, the net effect is: some pattern matches
case-insensitively and the column is not an identifier column. -/
def shouldCoerceNumeric (include_patterns : List String) (c : String) : Bool :=
  include_patterns.any (fun p => hasSubCI p c) && !ID_CODE_COLUMNS.contains c

/-- `df[col].notna().sum()`. -/
def countNotNA (df : DF) (c : String) : Nat :=
  (colVals df c).countP notNA

/-- The cells non-missing before a numeric coercion and missing after it:
exactly the values "lost" by the coercion (a cell already missing never
counts). -/
def lostCount (l : List (Option Value)) : Nat :=
  l.countP (fun o => notNA o && !notNA (o.map numCoerce))

/-- The message logged for a lossy numeric coercion
(`f"{col} ({lost} values coerced to NaN)"`). -/
def coercionMsg (c : String) (lost : Nat) : String :=
  c ++ " (" ++ toString lost ++ " values coerced to NaN)"

/-- The column loop of `convert_numeric_columns`: coerce a matching
column, and log under `"numeric_coercion"` when the non-missing count
decreased (`original_non_null` is the count before, `new_non_null`
after).  `pd.to_numeric` with `errors="coerce"` does not raise on bad
elements, so the `except` branch that would log under
`"numeric_conversion"` is unreachable. -/
def convertNumericGo (include_patterns : List String) :
    List String → DF → IssueLog → DF × IssueLog
  | [], df, log => (df, log)
  | c :: cs, df, log =>
    if shouldCoerceNumeric include_patterns c then
      convertNumericGo include_patterns cs (mapColumn df c numCoerce)
        (if countNotNA (mapColumn df c numCoerce) c < countNotNA df c then
          appendIssue log "numeric_coercion"
            (coercionMsg c (countNotNA df c - countNotNA (mapColumn df c numCoerce) c))
        else log)
    else convertNumericGo include_patterns cs df log

/-- `convert_numeric_columns`. -/
def convert_numeric_columns (df : DF) (include_patterns : List String)
    (log : IssueLog) : DF × IssueLog :=
  convertNumericGo include_patterns df.cols df log

/-! ## Table algebra used by the builders -/

/-- `df[cols]` column projection, every name of `cols` being present:
rows are rebuilt in the order of `cols`. -/
def select (df : DF) (cols : List String) : DF :=
  { cols := cols,
    rows := df.rows.map (fun r =>
      cols.map (fun c => (c, (Row.get r c).getD Value.null))) }

/-- The column renaming of `merge(..., suffixes=("", suffix))` for the
right-hand columns added to the result (no call in this pipeline has a
non-key column present on both sides, so the renaming never fires). -/
def mergeRename (leftCols : List String) (suffix : String) (c : String) : String :=
  if c ∈ leftCols then c ++ suffix else c

/-- `left.merge(right, on=keys, how="left")`: every left row is joined
with each matching right row (in right order), or padded with missing
values when none matches; pandas raises `KeyError` when a join key is
absent from either side. -/
def mergeLeft (left right : DF) (onKeys : List String) (suffix : String) :
    Except String DF :=
  if onKeys.all (fun k => decide (k ∈ left.cols)) &&
     onKeys.all (fun k => decide (k ∈ right.cols)) then
    let addCols := right.cols.filter (fun c => !onKeys.contains c)
    Except.ok
      { cols := left.cols ++ addCols.map (mergeRename left.cols suffix),
        rows := left.rows.flatMap (fun lr =>
          match right.rows.filter
              (fun rr => decide (keyProj onKeys rr = keyProj onKeys lr)) with
          | [] => [lr ++ addCols.map
              (fun c => (mergeRename left.cols suffix c, Value.null))]
          | ms => ms.map (fun rr =>
              lr ++ addCols.map (fun c =>
                (mergeRename left.cols suffix c, (Row.get rr c).getD Value.null)))) }
  else Except.error "KeyError: merge on"

/-! ## Dimension builders -/

/-- The `cols_to_keep` projection list of `build_dim_campaign`. -/
def campaign_cols_to_keep : List String :=
  ["CAMPAIGN_CDE", "CAMPAIGN_DESC", "PIECES_RET_GOAL", "PIECES_RET_ACTUAL",
   "EXPENSES_BUDGET", "EXPENSES_ACTUAL", "CAMPAN_AMT_GOAL",
   "CAMPAN_AMT_ACTUAL", "CAMP_CONTACT_ID_NUM", "CAMP_START_DATE",
   "CAMP_END_DATE", "ONLINE_GIVING_AVAIL", "ONLINE_GIVING_DESC"]

/-- `build_dim_campaign`: project the available columns, coerce the
amount/goal/actual/budget/pieces columns, deduplicate on `CAMPAIGN_CDE`
(an unguarded `drop_duplicates`, hence a `KeyError` when that column is
absent from the source). -/
def build_dim_campaign (campaign : DF) (log : IssueLog) :
    Except String (DF × IssueLog) :=
  (drop_duplicates
    (convert_numeric_columns
      (select campaign
        (campaign_cols_to_keep.filter (fun c => decide (c ∈ campaign.cols))))
      ["AMT", "GOAL", "ACTUAL", "BUDGET", "PIECES"] log).1
    ["CAMPAIGN_CDE"]).map
    (fun d => (d,
      (convert_numeric_columns
        (select campaign
          (campaign_cols_to_keep.filter (fun c => decide (c ∈ campaign.cols))))
        ["AMT", "GOAL", "ACTUAL", "BUDGET", "PIECES"] log).2))

/-- `build_dim_solicitation`: two-column projection deduplicated on
`SOLICIT_CDE` (unguarded, hence a `KeyError` when it is absent). -/
def build_dim_solicitation (solicit_def : DF) : Except String DF :=
  let available_cols :=
    (["SOLICIT_CDE", "DESCRIPTION"]).filter (fun c => decide (c ∈ solicit_def.cols))
  drop_duplicates (select solicit_def available_cols) ["SOLICIT_CDE"]

/-- The `cols_to_keep` projection list of `build_dim_gift_category`. -/
def gift_category_cols_to_keep : List String :=
  ["APPID", "CAT_COMP_1", "CAT_COMP_2", "GIFT_CAT_DESC", "CAMPAIGN_CDE",
   "FIN_AID_ELEMENT", "MEM_HONOR_CDE", "FUND_TYPE", "GIVING_CLUB_CDE",
   "DESIGNATION_CDE", "CASE_GROUP", "CHARITABLE_FLAG",
   "ONLINE_GIVING_AVAIL", "ONLINE_GIVING_DESC", "PROJECT_CODE"]

/-- `build_dim_gift_category`: projection deduplicated on the composite
key, with the dedup guarded by the presence of at least one key column
(so this builder never raises). -/
def build_dim_gift_category (gift_category : DF) : DF :=
  let available_cols :=
    gift_category_cols_to_keep.filter (fun c => decide (c ∈ gift_category.cols))
  let dim := select gift_category available_cols
  let existing_keys :=
    (["APPID", "CAT_COMP_1", "CAT_COMP_2"]).filter (fun c => decide (c ∈ dim.cols))
  if existing_keys ≠ [] then dropDupTotal dim existing_keys else dim

/-- The `name_cols` projection list of `build_dim_constituent`. -/
def constituent_name_cols : List String :=
  ["ID_NUM", "LAST_NAME", "FIRST_NAME", "MIDDLE_NAME", "PREFIX", "SUFFIX"]

/-- The `donor_cols_to_keep` projection list of `build_dim_constituent`. -/
def donor_cols_to_keep : List String :=
  ["ID_NUM", "PREF_MAIL_NM", "PREF_FST_NM", "PREF_LST_NM",
   "DONOR_MAIL_CODE", "ESTATE_PLAN_FLR", "ESTATE_PLAN_DOC",
   "YRS_CONT_GIVING", "NUM_GIVING_YRS", "AVG_GIFT_SIZE", "ANON_DONOR_FLAG",
   "DONOR_SELECT", "ACTIVE_FLAG", "STOP_MAIL_FLAG", "CURR_ADDR_CDE",
   "RECEIPT_SALUT", "SINGLE_SALUT", "JOINT_SALUT", "FIRST_GIFT_DTE",
   "FIRST_GIFT_AMT", "LAST_GIFT_DTE", "LAST_GIFT_AMT", "LARGEST_GIFT_DTE",
   "LARGEST_GIFT_AMT", "SMALLEST_GIFT_DTE", "SMALLEST_GIFT_AMT"]

/-- The optional `IS_ALUMNI` step of `build_dim_constituent`: when an
alumni table with an `ID_NUM` column is supplied, add a boolean column
flagging membership of each row's `ID_NUM` in the alumni identifiers
(`dim["ID_NUM"].isin(alumni_ids)` — a `KeyError` when `dim` lacks
`ID_NUM`, though the preceding join guarantees it in the pipeline). -/
def constituentAlumni (dim2 : DF) (alumni_master : Option DF) :
    Except String DF :=
  match alumni_master with
  | some am =>
    if "ID_NUM" ∈ am.cols then
      if "ID_NUM" ∈ dim2.cols then
        Except.ok
          { cols := dim2.cols ++ ["IS_ALUMNI"],
            rows := dim2.rows.map (fun r =>
              r ++ [("IS_ALUMNI",
                Value.bool ((colVals am "ID_NUM").contains
                  (Row.get r "ID_NUM")))]) }
      else Except.error "KeyError: ID_NUM"
    else Except.ok dim2
  | none => Except.ok dim2

/-- `build_dim_constituent`: name-table projection, numeric coercion of
the donor subset, left join on `ID_NUM` (a `KeyError` when it is missing
on either side), the optional `IS_ALUMNI` membership flag, and a final
unguarded dedup on `ID_NUM`. -/
def build_dim_constituent (name_master donor_master : DF)
    (alumni_master : Option DF) (log : IssueLog) :
    Except String (DF × IssueLog) :=
  ((mergeLeft
      (select name_master
        (constituent_name_cols.filter (fun c => decide (c ∈ name_master.cols))))
      (convert_numeric_columns
        (select donor_master
          (donor_cols_to_keep.filter (fun c => decide (c ∈ donor_master.cols))))
        ["AMT", "YRS", "NUM", "SIZE"] log).1
      ["ID_NUM"] "_y").bind
    (fun dim2 => (constituentAlumni dim2 alumni_master).bind
      (fun d => drop_duplicates d ["ID_NUM"]))).map
    (fun d2 => (d2,
      (convert_numeric_columns
        (select donor_master
          (donor_cols_to_keep.filter (fun c => decide (c ∈ donor_master.cols))))
        ["AMT", "YRS", "NUM", "SIZE"] log).2))

/-! ## The gift-transaction fact builder -/

/-- The `tran_cols` projection list of `build_fact_gift_transaction`. -/
def tran_cols : List String :=
  ["GIFT_GROUP_NUM", "GIFT_NUM", "GIFT_TRAN_NUM", "DONOR_ID", "CAT_COMP_1",
   "CAT_COMP_2", "MEM_HONOR_CDE", "AID_ELEMENT", "CAMPAIGN_CDE",
   "SOLICIT_CDE", "GIVING_CLUB_CDE", "GIFT_DTE", "GIFT_TRAN_AMT",
   "GIVING_RELATION", "CHARITABLE_YN", "GIFT_TRAN_STS", "SOFT_CREDIT_YN",
   "GIFT_CLASS", "SUB_CLASS_CDE", "GIFT_SET_CDE", "ANON_GIFT_TRAN",
   "NOTATION_1", "NOTATION_2", "RESTR_TYPE", "CONTRIB_TYPE",
   "MATURITY_AMT", "MATURITY_DTE", "MATCH_CO_ID", "SOLICITOR_ID"]

/-- The `master_cols` projection list of `build_fact_gift_transaction`. -/
def gift_master_cols : List String :=
  ["GIFT_GROUP_NUM", "GIFT_NUM", "GIFT_AMT", "LETTER_TO_SEND",
   "PROPOSAL_NUM", "BANK_ID", "CHECK_CC_NUM", "LEGAL_TENDER", "EXPIRE_DTE",
   "ACK_DATE", "PRINT_RECPT_YN", "IMMED_LETTER_YN", "BOOK_YN",
   "GIFT_MASTER_STS"]

/-- Thousands grouping of a reversed digit list (three digits emitted
since the last separator trigger a comma). -/
def commaAux : List Char → Nat → List Char
  | [], _ => []
  | a :: rest, k =>
    if k = 3 then ',' :: a :: commaAux rest 1
    else a :: commaAux rest (k + 1)

/-- Python's `f"{n:,}"` for a natural number. -/
def commaFmt (n : Nat) : String :=
  ⟨(commaAux (toString n).data.reverse 0).reverse⟩

/-- The removal report line
(`print(f"  Removed {removed:,} rows with missing {col}")`). -/
def removedMsg (n : Nat) (colName : String) : String :=
  "  Removed " ++ commaFmt n ++ " rows with missing " ++ colName

/-- Keep a row whose cell in `c` is non-missing and non-empty
(`fact[fact[c].notna() & (fact[c] != "")]`). -/
def keepPresent (c : String) (r : Row) : Bool :=
  match Row.get r c with
  | some v => !v.isNull && !(decide (v = Value.str ""))
  | none => false

/-- One "remove rows with missing `c`" block of
`build_fact_gift_transaction`: filter when `c` is a column, and report
the removed-row count when it is positive. -/
def filterMissing (df : DF) (c : String) : DF × List String :=
  if c ∈ df.cols then
    ({ cols := df.cols, rows := df.rows.filter (keepPresent c) },
     if 0 < df.rows.length - (df.rows.filter (keepPresent c)).length then
       [removedMsg (df.rows.length - (df.rows.filter (keepPresent c)).length) c]
     else [])
  else (df, [])

/-- `build_fact_gift_transaction`: transaction projection, amount
coercion, header join deduplicated on the composite key (guarded on the
header side only), then the two unattributable-row filters.  Returns the
fact table, the issue log, and the removal report lines printed. -/
def build_fact_gift_transaction (gift_tran gift_master : DF)
    (log : IssueLog) : Except String (DF × IssueLog × List String) :=
  let available_tran_cols :=
    tran_cols.filter (fun c => decide (c ∈ gift_tran.cols))
  let fl := convert_numeric_columns (select gift_tran available_tran_cols)
    ["AMT"] log
  let available_master_cols :=
    gift_master_cols.filter (fun c => decide (c ∈ gift_master.cols))
  let ml := convert_numeric_columns (select gift_master available_master_cols)
    ["AMT"] fl.2
  let join_keys := ["GIFT_GROUP_NUM", "GIFT_NUM"]
  let merged : Except String DF :=
    if join_keys.all (fun k => decide (k ∈ ml.1.cols)) then
      mergeLeft fl.1 (dropDupTotal ml.1 join_keys) join_keys "_MASTER"
    else Except.ok fl.1
  match merged with
  | .error e => .error e
  | .ok fact2 =>
    let fm1 := filterMissing fact2 "DONOR_ID"
    let fm2 := filterMissing fm1.1 "GIFT_NUM"
    .ok (fm2.1, ml.2, fm1.2 ++ fm2.2)

/-! ## Concrete tables used as test inputs -/

/-- A campaign source with one campaign code appearing three times with
different descriptions. -/
def campDupEx : DF :=
  { cols := ["CAMPAIGN_CDE", "CAMPAIGN_DESC"],
    rows := [
      [("CAMPAIGN_CDE", .str "C1"), ("CAMPAIGN_DESC", .str "first")],
      [("CAMPAIGN_CDE", .str "C1"), ("CAMPAIGN_DESC", .str "second")],
      [("CAMPAIGN_CDE", .str "C1"), ("CAMPAIGN_DESC", .str "third")]] }

/-- The expected campaign dimension: one row per code, first description. -/
def campDedupEx : DF :=
  { cols := ["CAMPAIGN_CDE", "CAMPAIGN_DESC"],
    rows := [[("CAMPAIGN_CDE", .str "C1"), ("CAMPAIGN_DESC", .str "first")]] }

/-- One gift-transaction row of the ten-row example source. -/
def gtRow (g d : String) : Row :=
  [("GIFT_GROUP_NUM", .str "G1"), ("GIFT_NUM", .str g),
   ("GIFT_TRAN_NUM", .str "T1"), ("DONOR_ID", .str d)]

/-- A gift-transaction source with 10 rows of which exactly 2 have an
empty donor identifier (all gift numbers present). -/
def gtEx : DF :=
  { cols := ["GIFT_GROUP_NUM", "GIFT_NUM", "GIFT_TRAN_NUM", "DONOR_ID"],
    rows := [gtRow "1" "D1", gtRow "2" "D2", gtRow "3" "", gtRow "4" "D4",
      gtRow "5" "D5", gtRow "6" "", gtRow "7" "D7", gtRow "8" "D8",
      gtRow "9" "D9", gtRow "10" "D10"] }

/-- A gift-master source contributing nothing to the join. -/
def gmEx : DF := { cols := ["X"], rows := [] }

/-- A `gift_master`-shaped table where only the first of the two declared
key columns is present, with two rows sharing that column's value. -/
def partialKeyEx : DF :=
  { cols := ["GIFT_GROUP_NUM", "X"],
    rows := [
      [("GIFT_GROUP_NUM", .str "1"), ("X", .str "a")],
      [("GIFT_GROUP_NUM", .str "1"), ("X", .str "b")]] }

/-- A table whose identifier column `ID_NUM` is null in every row. -/
def allNullIdEx : DF :=
  { cols := ["ID_NUM", "X"],
    rows := [
      [("ID_NUM", .null), ("X", .str "a")],
      [("ID_NUM", .null), ("X", .str "b")]] }

/-- A date column holding one unparseable value. -/
def badDateEx : DF :=
  { cols := ["GIFT_DTE"], rows := [[("GIFT_DTE", .str "garbage")]] }

/-- A solicitation source lacking its `SOLICIT_CDE` key column. -/
def solMissingEx : DF :=
  { cols := ["DESCRIPTION"], rows := [[("DESCRIPTION", .str "x")]] }

/-- A one-row solicitation source that has its key column. -/
def solOneEx : DF :=
  { cols := ["SOLICIT_CDE"], rows := [[("SOLICIT_CDE", .str "S1")]] }

/-- An identifier column holding the literal text `"nan"`. -/
def nanTextEx : DF :=
  { cols := ["DONOR_ID"], rows := [[("DONOR_ID", .str "nan")]] }

/-- An identifier column holding `"000123"` beside a numeric-pattern
column. -/
def leadingZeroEx : DF :=
  { cols := ["ID_NUM", "GIFT_TRAN_AMT"],
    rows := [[("ID_NUM", .str " 000123 "), ("GIFT_TRAN_AMT", .str "7")]] }

/-- An amount column with one unparseable value, one parseable value and
one already-missing value. -/
def lossyAmtEx : DF :=
  { cols := ["GIFT_TRAN_AMT"],
    rows := [[("GIFT_TRAN_AMT", .str "N/A")], [("GIFT_TRAN_AMT", .str "12")],
      [("GIFT_TRAN_AMT", .null)]] }

/-- The fact table built from `gtEx` and `gmEx`: the 8 rows with a
non-empty donor identifier. -/
def gtOutEx : DF :=
  { cols := ["GIFT_GROUP_NUM", "GIFT_NUM", "GIFT_TRAN_NUM", "DONOR_ID"],
    rows := [gtRow "1" "D1", gtRow "2" "D2", gtRow "4" "D4", gtRow "5" "D5",
      gtRow "7" "D7", gtRow "8" "D8", gtRow "9" "D9", gtRow "10" "D10"] }

/-! ## Character-level lemmas -/

theorem char_eq_iff_toNat (a b : Char) : a = b ↔ a.toNat = b.toNat := by
  constructor
  · intro h; rw [h]
  · intro h
    apply Char.eq_of_val_eq
    apply UInt32.eq_of_toBitVec_eq
    exact BitVec.eq_of_toNat_eq h

theorem toNat_ofNat_valid (n : Nat) (h : n < 55296) : (Char.ofNat n).toNat = n := by
  simp [Char.ofNat, Nat.isValidChar, h, Char.ofNatAux, Char.toNat, UInt32.toNat,
    BitVec.toNat_ofNatLt]

theorem isAsciiLower_iff (c : Char) :
    isAsciiLower c = true ↔ 97 ≤ c.toNat ∧ c.toNat ≤ 122 := by
  simp [isAsciiLower]

theorem toNat_asciiUpperChar (c : Char) :
    (asciiUpperChar c).toNat = if isAsciiLower c then c.toNat - 32 else c.toNat := by
  unfold asciiUpperChar
  split
  · next h =>
    have hb := (isAsciiLower_iff c).mp h
    exact toNat_ofNat_valid _ (by omega)
  · rfl

theorem upChar_not_lower (c : Char) : isAsciiLower (asciiUpperChar c) = false := by
  have ht := toNat_asciiUpperChar c
  by_cases h : isAsciiLower c = true
  · rw [if_pos h] at ht
    have hb := (isAsciiLower_iff c).mp h
    simp only [isAsciiLower, decide_eq_false_iff_not, ht]
    omega
  · rw [if_neg h] at ht
    have hb : ¬ (97 ≤ c.toNat ∧ c.toNat ≤ 122) := by
      simpa [isAsciiLower_iff] using h
    simp only [isAsciiLower, decide_eq_false_iff_not, ht]
    omega

theorem upChar_fix (c : Char) (h : isAsciiLower c = false) : asciiUpperChar c = c := by
  unfold asciiUpperChar
  rw [if_neg (by simp [h])]

theorem upChar_idem (c : Char) :
    asciiUpperChar (asciiUpperChar c) = asciiUpperChar c :=
  upChar_fix _ (upChar_not_lower c)

theorem upChar_underscore (c : Char) : (asciiUpperChar c = '_') ↔ (c = '_') := by
  rw [char_eq_iff_toNat, char_eq_iff_toNat]
  have ht := toNat_asciiUpperChar c
  simp only [show ('_' : Char).toNat = 95 from rfl]
  by_cases h : isAsciiLower c = true
  · rw [if_pos h] at ht
    have hb := (isAsciiLower_iff c).mp h
    rw [ht]
    omega
  · rw [if_neg h] at ht
    rw [ht]

theorem upChar_pyspace (c : Char) : isPySpace (asciiUpperChar c) = isPySpace c := by
  have ht := toNat_asciiUpperChar c
  by_cases h : isAsciiLower c = true
  · rw [if_pos h] at ht
    have hb := (isAsciiLower_iff c).mp h
    simp only [isPySpace, decide_eq_decide, ht]
    omega
  · rw [if_neg h] at ht
    simp only [isPySpace, decide_eq_decide, ht]

theorem spaceToU_ne_space (c : Char) : ¬ (spaceToU c = ' ') := by
  unfold spaceToU
  split
  · decide
  · next h => exact h

theorem spaceToU_fix (c : Char) (h : ¬ (c = ' ')) : spaceToU c = c := by
  unfold spaceToU
  rw [if_neg h]

theorem spaceToU_pyspace (c : Char) (h : isPySpace c = false) :
    isPySpace (spaceToU c) = false := by
  unfold spaceToU
  split
  · next he =>
    exfalso
    rw [he] at h
    exact absurd h (by decide)
  · exact h

theorem upChar_space (c : Char) : (asciiUpperChar c = ' ') ↔ (c = ' ') := by
  rw [char_eq_iff_toNat, char_eq_iff_toNat]
  have ht := toNat_asciiUpperChar c
  simp only [show (' ' : Char).toNat = 32 from rfl]
  by_cases h : isAsciiLower c = true
  · rw [if_pos h] at ht
    have hb := (isAsciiLower_iff c).mp h
    rw [ht]
    omega
  · rw [if_neg h] at ht
    rw [ht]

/-! ## List-level lemmas about the normalizer's passes -/

theorem map_fix {α : Type} (f : α → α) (l : List α) (h : ∀ c ∈ l, f c = c) :
    l.map f = l := by
  induction l with
  | nil => rfl
  | cons a t ih =>
    simp only [List.map_cons, h a (by simp)]
    rw [ih (fun c hc => h c (by simp [hc]))]

theorem getLast?_cons_ne {α : Type} (a : α) (l : List α) (h : l ≠ []) :
    (a :: l).getLast? = l.getLast? := by
  cases l with
  | nil => exact absurd rfl h
  | cons b t => exact List.getLast?_cons_cons

theorem head?_camelSub (l : List Char) : (camelSub l).head? = l.head? := by
  cases l with
  | nil => rfl
  | cons a t =>
    cases t with
    | nil => rfl
    | cons b rest =>
      simp only [camelSub]
      split <;> rfl

theorem camelSub_ne_nil (l : List Char) (h : l ≠ []) : camelSub l ≠ [] := by
  intro hc
  have h1 : (camelSub l).head? = none := by rw [hc]; rfl
  rw [head?_camelSub] at h1
  cases l with
  | nil => exact h rfl
  | cons a t => exact Option.noConfusion h1

theorem getLast?_camelSub (l : List Char) : (camelSub l).getLast? = l.getLast? := by
  induction l with
  | nil => rfl
  | cons a t ih =>
    cases t with
    | nil => rfl
    | cons b rest =>
      have hne : camelSub (b :: rest) ≠ [] := camelSub_ne_nil _ (by simp)
      simp only [camelSub]
      split
      · rw [getLast?_cons_ne a _ (by simp), getLast?_cons_ne '_' _ hne, ih,
          List.getLast?_cons_cons]
      · rw [getLast?_cons_ne a _ hne, ih, List.getLast?_cons_cons]

theorem mem_camelSub (l : List Char) (c : Char) (h : c ∈ camelSub l) :
    c = '_' ∨ c ∈ l := by
  induction l with
  | nil => exact absurd h (by simp [camelSub])
  | cons a t ih =>
    cases t with
    | nil =>
      simp only [camelSub] at h
      right; exact h
    | cons b rest =>
      simp only [camelSub] at h
      split at h
      · rcases List.mem_cons.mp h with h1 | h2
        · right; simp [h1]
        · rcases List.mem_cons.mp h2 with h3 | h4
          · left; exact h3
          · rcases ih h4 with h5 | h5
            · left; exact h5
            · right; exact List.mem_cons_of_mem a h5
      · rcases List.mem_cons.mp h with h1 | h2
        · right; simp [h1]
        · rcases ih h2 with h5 | h5
          · left; exact h5
          · right; exact List.mem_cons_of_mem a h5

theorem camelSub_fix (l : List Char) (h : ∀ c ∈ l, isAsciiLower c = false) :
    camelSub l = l := by
  induction l with
  | nil => rfl
  | cons a t ih =>
    cases t with
    | nil => rfl
    | cons b rest =>
      simp only [camelSub]
      rw [if_neg (by simp [h a (by simp)])]
      rw [ih (fun c hc => h c (by simp [hc]))]

theorem head?_collapseU (l : List Char) : (collapseU l).head? = l.head? := by
  induction l with
  | nil => rfl
  | cons a t ih =>
    cases t with
    | nil => rfl
    | cons b rest =>
      simp only [collapseU]
      split
      · next hc =>
        rw [ih]
        have : a = '_' ∧ b = '_' := by
          simpa using hc
        simp [this.1, this.2]
      · rfl

theorem collapseU_ne_nil (l : List Char) (h : l ≠ []) : collapseU l ≠ [] := by
  intro hc
  have h1 : (collapseU l).head? = none := by rw [hc]; rfl
  rw [head?_collapseU] at h1
  cases l with
  | nil => exact h rfl
  | cons a t => exact Option.noConfusion h1

theorem getLast?_collapseU (l : List Char) : (collapseU l).getLast? = l.getLast? := by
  induction l with
  | nil => rfl
  | cons a t ih =>
    cases t with
    | nil => rfl
    | cons b rest =>
      have hne : collapseU (b :: rest) ≠ [] := collapseU_ne_nil _ (by simp)
      simp only [collapseU]
      split
      · rw [ih, List.getLast?_cons_cons]
      · rw [getLast?_cons_ne a _ hne, ih, List.getLast?_cons_cons]

theorem mem_collapseU (l : List Char) (c : Char) (h : c ∈ collapseU l) : c ∈ l := by
  induction l with
  | nil => exact absurd h (by simp [collapseU])
  | cons a t ih =>
    cases t with
    | nil =>
      simp only [collapseU] at h
      exact h
    | cons b rest =>
      simp only [collapseU] at h
      split at h
      · exact List.mem_cons_of_mem a (ih h)
      · rcases List.mem_cons.mp h with h1 | h2
        · simp [h1]
        · exact List.mem_cons_of_mem a (ih h2)

theorem collapseU_fix (l : List Char) (h : noDD l) : collapseU l = l := by
  induction l with
  | nil => rfl
  | cons a t ih =>
    cases t with
    | nil => rfl
    | cons b rest =>
      simp only [collapseU]
      rw [if_neg (by simpa using h.1)]
      rw [ih h.2]

theorem noDD_collapseU (l : List Char) : noDD (collapseU l) := by
  induction l with
  | nil => trivial
  | cons a t ih =>
    cases t with
    | nil => trivial
    | cons b rest =>
      simp only [collapseU]
      split
      · exact ih
      · next hc =>
        have hx : (collapseU (b :: rest)).head? = some b := by
          rw [head?_collapseU]; rfl
        cases hX : collapseU (b :: rest) with
        | nil => rw [hX] at hx; exact Option.noConfusion hx
        | cons x xs =>
          rw [hX] at hx ih
          have hxb : x = b := by
            injection hx
          constructor
          · rw [hxb]
            simpa using hc
          · exact ih

theorem noDD_map_up (l : List Char) (h : noDD l) :
    noDD (l.map asciiUpperChar) := by
  induction l with
  | nil => trivial
  | cons a t ih =>
    cases t with
    | nil => trivial
    | cons b rest =>
      simp only [List.map_cons] at ih ⊢
      refine ⟨?_, ih h.2⟩
      intro ⟨ha, hb⟩
      exact h.1 ⟨(upChar_underscore a).mp ha, (upChar_underscore b).mp hb⟩

/-! ## The stripped ends of the normalizer output -/

theorem head?_dropWhile_not {α : Type} (p : α → Bool) (l : List α) (c : α)
    (h : (l.dropWhile p).head? = some c) : p c = false := by
  induction l with
  | nil => exact Option.noConfusion h
  | cons a t ih =>
    rw [List.dropWhile_cons] at h
    split at h
    · exact ih h
    · next hp =>
      injection h with h
      rw [← h]
      simpa using hp

theorem dropWhile_eq_self_of_head {α : Type} (p : α → Bool) (l : List α)
    (h : ∀ c, l.head? = some c → p c = false) : l.dropWhile p = l := by
  cases l with
  | nil => rfl
  | cons a t =>
    rw [List.dropWhile_cons, if_neg]
    simp [h a rfl]

theorem getLast?_suffix_ne {α : Type} (l₁ l₂ : List α) (hs : l₁ <:+ l₂)
    (h : l₁ ≠ []) : l₁.getLast? = l₂.getLast? := by
  obtain ⟨pre, rfl⟩ := hs
  rw [List.getLast?_append]
  cases hL : l₁.getLast? with
  | none =>
    exfalso
    rw [List.getLast?_eq_none_iff] at hL
    exact h hL
  | some x => rfl

theorem endsOK_pyStripL (l : List Char) : endsOK (pyStripL l) := by
  unfold pyStripL
  set A := l.dropWhile isPySpace with hA
  set B := A.reverse.dropWhile isPySpace with hB
  constructor
  · intro c hc
    rw [List.head?_reverse] at hc
    have hBne : B ≠ [] := by
      intro hn
      rw [hn] at hc
      exact Option.noConfusion hc
    rw [getLast?_suffix_ne B A.reverse (List.dropWhile_suffix _) hBne] at hc
    rw [List.getLast?_reverse] at hc
    exact head?_dropWhile_not _ _ _ (by rw [← hA]; exact hc)
  · intro c hc
    rw [List.getLast?_reverse] at hc
    exact head?_dropWhile_not _ _ _ (by rw [← hB]; exact hc)

theorem pyStripL_fix (l : List Char) (h : endsOK l) : pyStripL l = l := by
  unfold pyStripL
  rw [dropWhile_eq_self_of_head _ _ h.1]
  rw [dropWhile_eq_self_of_head _ _ (by
    intro c hc
    rw [List.head?_reverse] at hc
    exact h.2 c hc)]
  exact List.reverse_reverse l

/-! ## Idempotence of the name normalizer -/

theorem upSnake_no_lower (l : List Char) :
    ∀ c ∈ upSnake l, isAsciiLower c = false := by
  intro c hc
  unfold upSnake at hc
  rw [List.mem_map] at hc
  obtain ⟨c₀, _, rfl⟩ := hc
  exact upChar_not_lower c₀

theorem upSnake_no_space (l : List Char) :
    ∀ c ∈ upSnake l, ¬ (c = ' ') := by
  intro c hc
  unfold upSnake at hc
  rw [List.mem_map] at hc
  obtain ⟨c₀, hc₀, rfl⟩ := hc
  intro hsp
  have hc₀' : c₀ = ' ' := (upChar_space c₀).mp hsp
  have hm := mem_collapseU _ _ hc₀
  rcases mem_camelSub _ _ hm with h1 | h1
  · rw [hc₀'] at h1
    exact absurd h1.symm (by decide)
  · rw [List.mem_map] at h1
    obtain ⟨c₁, _, he⟩ := h1
    rw [hc₀'] at he
    exact spaceToU_ne_space c₁ he

theorem upSnake_noDD (l : List Char) : noDD (upSnake l) :=
  noDD_map_up _ (noDD_collapseU _)

theorem upSnake_endsOK (l : List Char) : endsOK (upSnake l) := by
  have hS := endsOK_pyStripL l
  unfold upSnake
  constructor
  · intro c hc
    rw [List.head?_map, head?_collapseU, head?_camelSub, List.head?_map] at hc
    cases hh : (pyStripL l).head? with
    | none => rw [hh] at hc; exact Option.noConfusion hc
    | some c₀ =>
      rw [hh] at hc
      simp only [Option.map_some'] at hc
      injection hc with hc
      rw [← hc, upChar_pyspace]
      exact spaceToU_pyspace c₀ (hS.1 c₀ hh)
  · intro c hc
    rw [List.getLast?_map, getLast?_collapseU, getLast?_camelSub,
      List.getLast?_map] at hc
    cases hh : (pyStripL l).getLast? with
    | none => rw [hh] at hc; exact Option.noConfusion hc
    | some c₀ =>
      rw [hh] at hc
      simp only [Option.map_some'] at hc
      injection hc with hc
      rw [← hc, upChar_pyspace]
      exact spaceToU_pyspace c₀ (hS.2 c₀ hh)

theorem upSnake_idem (l : List Char) : upSnake (upSnake l) = upSnake l := by
  conv_lhs => rw [upSnake]
  rw [pyStripL_fix _ (upSnake_endsOK l)]
  rw [map_fix spaceToU _ (fun c hc => spaceToU_fix c (upSnake_no_space l c hc))]
  rw [camelSub_fix _ (upSnake_no_lower l)]
  rw [collapseU_fix _ (upSnake_noDD l)]
  exact map_fix asciiUpperChar _ (fun c hc => upChar_fix c (upSnake_no_lower l c hc))

theorem to_upper_snake_case_idem (s : String) :
    to_upper_snake_case (to_upper_snake_case s) = to_upper_snake_case s := by
  unfold to_upper_snake_case
  exact congrArg String.mk (upSnake_idem s.data)

/-! ## Row and column lemmas -/

theorem Row.get_mapCell_same (r : Row) (c : String) (f : Value → Value) :
    (Row.mapCell c f r).get c = (r.get c).map f := by
  induction r with
  | nil => rfl
  | cons p t ih =>
    simp only [Row.mapCell, List.map_cons]
    by_cases hp : p.1 = c
    · unfold Row.get
      rw [if_pos hp]
      rw [List.find?_cons_of_pos _ (by simpa using hp),
        List.find?_cons_of_pos _ (by simpa using hp)]
      rfl
    · unfold Row.get
      rw [if_neg hp]
      rw [List.find?_cons_of_neg _ (by simpa using hp),
        List.find?_cons_of_neg _ (by simpa using hp)]
      exact ih

theorem Row.get_mapCell_other (r : Row) (c c' : String) (f : Value → Value)
    (h : ¬ (c' = c)) : (Row.mapCell c' f r).get c = r.get c := by
  induction r with
  | nil => rfl
  | cons p t ih =>
    simp only [Row.mapCell, List.map_cons]
    by_cases hp : p.1 = c'
    · unfold Row.get
      rw [if_pos hp]
      rw [List.find?_cons_of_neg _ (by simp [hp, h]),
        List.find?_cons_of_neg _ (by simp [hp, h])]
      exact ih
    · unfold Row.get
      rw [if_neg hp]
      by_cases hc : p.1 = c
      · rw [List.find?_cons_of_pos _ (by simpa using hc),
          List.find?_cons_of_pos _ (by simpa using hc)]
      · rw [List.find?_cons_of_neg _ (by simpa using hc),
          List.find?_cons_of_neg _ (by simpa using hc)]
        exact ih

theorem Row.get_mapVals (r : Row) (c : String) (f : Value → Value) :
    Row.get (r.map (fun p => (p.1, f p.2))) c = (Row.get r c).map f := by
  induction r with
  | nil => rfl
  | cons p t ih =>
    simp only [List.map_cons]
    by_cases hc : p.1 = c
    · unfold Row.get
      rw [List.find?_cons_of_pos _ (by simpa using hc),
        List.find?_cons_of_pos _ (by simpa using hc)]
      rfl
    · unfold Row.get
      rw [List.find?_cons_of_neg _ (by simpa using hc),
        List.find?_cons_of_neg _ (by simpa using hc)]
      exact ih

theorem Row.get_filterCols (r : Row) (keep : String → Bool) (c : String) :
    (Row.filterCols keep r).get c = if keep c then r.get c else none := by
  induction r with
  | nil => simp [Row.filterCols, Row.get]
  | cons p t ih =>
    simp only [Row.filterCols, List.filter_cons] at *
    by_cases hk : keep p.1 = true
    · rw [if_pos hk]
      by_cases hc : p.1 = c
      · unfold Row.get
        rw [List.find?_cons_of_pos _ (by simpa using hc),
          List.find?_cons_of_pos _ (by simpa using hc)]
        rw [hc] at hk
        rw [if_pos hk]
      · unfold Row.get
        rw [List.find?_cons_of_neg _ (by simpa using hc),
          List.find?_cons_of_neg _ (by simpa using hc)]
        exact ih
    · rw [if_neg hk]
      by_cases hc : p.1 = c
      · rw [ih]
        rw [hc] at hk
        rw [if_neg hk, if_neg hk]
      · rw [ih]
        unfold Row.get
        rw [List.find?_cons_of_neg _ (by simpa using hc)]

theorem Row.get_some_mem_keys (r : Row) (c : String) (v : Value)
    (h : r.get c = some v) : c ∈ r.keys := by
  unfold Row.get at h
  cases hf : r.find? (fun p => decide (p.1 = c)) with
  | none => rw [hf] at h; exact Option.noConfusion h
  | some p =>
    have hm := List.mem_of_find?_eq_some hf
    have hp := List.find?_some hf
    simp only [decide_eq_true_eq] at hp
    unfold Row.keys
    rw [← hp]
    exact List.mem_map_of_mem Prod.fst hm

theorem Row.mem_keys_get_some (r : Row) (c : String) (h : c ∈ r.keys) :
    ∃ v, r.get c = some v := by
  induction r with
  | nil => exact absurd h (by simp [Row.keys])
  | cons p t ih =>
    by_cases hc : p.1 = c
    · exact ⟨p.2, by unfold Row.get; rw [List.find?_cons_of_pos _ (by simpa using hc)]; rfl⟩
    · have ht : c ∈ Row.keys t := by
        unfold Row.keys at h ⊢
        simp only [List.map_cons, List.mem_cons] at h
        rcases h with h | h
        · exact absurd h.symm hc
        · exact h
      obtain ⟨v, hv⟩ := ih ht
      exact ⟨v, by
        unfold Row.get at hv ⊢
        rw [List.find?_cons_of_neg _ (by simpa using hc)]
        exact hv⟩

theorem Row.keys_mapCell (r : Row) (c : String) (f : Value → Value) :
    (Row.mapCell c f r).keys = r.keys := by
  unfold Row.mapCell Row.keys
  rw [List.map_map]
  apply List.map_congr_left
  intro p _
  by_cases hp : p.1 = c <;> simp [hp]

theorem Row.keys_mapVals (r : Row) (f : Value → Value) :
    Row.keys (r.map (fun p => (p.1, f p.2))) = Row.keys r := by
  unfold Row.keys
  rw [List.map_map]
  rfl

theorem Row.keys_filterCols (r : Row) (keep : String → Bool) :
    (Row.filterCols keep r).keys = r.keys.filter keep := by
  induction r with
  | nil => rfl
  | cons p t ih =>
    simp only [Row.filterCols, Row.keys, List.filter_cons, List.map_cons] at *
    by_cases hk : keep p.1 = true
    · rw [if_pos hk, if_pos hk]
      simpa using ih
    · rw [if_neg hk, if_neg hk]
      exact ih

theorem colVals_mapColumn_same (df : DF) (c : String) (f : Value → Value) :
    colVals (mapColumn df c f) c = (colVals df c).map (Option.map f) := by
  unfold colVals mapColumn
  simp only [List.map_map]
  apply List.map_congr_left
  intro r _
  exact Row.get_mapCell_same r c f

theorem colVals_mapColumn_other (df : DF) (c c' : String) (f : Value → Value)
    (h : ¬ (c' = c)) : colVals (mapColumn df c' f) c = colVals df c := by
  unfold colVals mapColumn
  simp only [List.map_map]
  apply List.map_congr_left
  intro r _
  exact Row.get_mapCell_other r c c' f h

theorem cols_mapColumn (df : DF) (c : String) (f : Value → Value) :
    (mapColumn df c f).cols = df.cols := rfl

/-! ## Deduplication lemmas -/

theorem dropDupAux_mem_spec (keys : List String) :
    ∀ (rows : List Row) (seen : List (List (Option Value))) (r : Row),
      r ∈ dropDupAux keys seen rows →
      keyProj keys r ∉ seen ∧
      rows.find? (fun x => decide (keyProj keys x = keyProj keys r)) = some r := by
  intro rows
  induction rows with
  | nil => intro seen r h; exact absurd h (by simp [dropDupAux])
  | cons a rs ih =>
    intro seen r h
    simp only [dropDupAux] at h
    split at h
    · next hseen =>
      obtain ⟨hnot, hfind⟩ := ih seen r h
      refine ⟨hnot, ?_⟩
      rw [List.find?_cons_of_neg, hfind]
      simp only [decide_eq_true_eq]
      intro he
      rw [he] at hseen
      exact hnot hseen
    · next hseen =>
      rcases List.mem_cons.mp h with rfl | hmem
      · exact ⟨hseen, by rw [List.find?_cons_of_pos _ (by simp)]⟩
      · obtain ⟨hnot, hfind⟩ := ih _ r hmem
        have hne : ¬ (keyProj keys a = keyProj keys r) := by
          intro he
          exact hnot (by rw [← he]; exact List.mem_cons_self _ _)
        constructor
        · intro hmem'
          exact hnot (List.mem_cons_of_mem _ hmem')
        · rw [List.find?_cons_of_neg _ (by simpa using hne), hfind]

theorem dropDupAux_pairwise (keys : List String) :
    ∀ (rows : List Row) (seen : List (List (Option Value))),
      (dropDupAux keys seen rows).Pairwise
        (fun a b => keyProj keys a ≠ keyProj keys b) := by
  intro rows
  induction rows with
  | nil => intro seen; simp [dropDupAux]
  | cons a rs ih =>
    intro seen
    simp only [dropDupAux]
    split
    · exact ih seen
    · refine List.Pairwise.cons ?_ (ih _)
      intro b hb hab
      have := (dropDupAux_mem_spec keys rs _ b hb).1
      exact this (by rw [← hab]; exact List.mem_cons_self _ _)

theorem dropDupAux_mem_of_mem (keys : List String) (rows : List Row)
    (seen : List (List (Option Value))) (r : Row)
    (h : r ∈ dropDupAux keys seen rows) : r ∈ rows :=
  List.mem_of_find?_eq_some (dropDupAux_mem_spec keys rows seen r h).2

theorem deduplicate_mem (df : DF) (keys : List String) (r : Row)
    (h : r ∈ (deduplicate_by_key df keys).rows) : r ∈ df.rows := by
  unfold deduplicate_by_key at h
  split at h
  · exact dropDupAux_mem_of_mem _ _ _ _ h
  · exact h

theorem deduplicate_cols (df : DF) (keys : List String) :
    (deduplicate_by_key df keys).cols = df.cols := by
  unfold deduplicate_by_key
  split <;> rfl

/-! ## Well-formedness preservation -/

theorem mapColumn_wf (df : DF) (c : String) (f : Value → Value)
    (h : df.wf) : (mapColumn df c f).wf := by
  intro r hr
  unfold mapColumn at hr ⊢
  simp only [List.mem_map] at hr
  obtain ⟨r₀, hr₀, rfl⟩ := hr
  rw [Row.keys_mapCell]
  exact h r₀ hr₀

theorem standardize_wf (df : DF) (h : df.wf) :
    (standardize_column_names df).wf := by
  intro r hr
  unfold standardize_column_names at hr ⊢
  simp only [List.mem_map] at hr
  obtain ⟨r₀, hr₀, rfl⟩ := hr
  have hk : Row.keys r₀ = df.cols := h r₀ hr₀
  unfold Row.keys at hk ⊢
  rw [List.map_map]
  have hfun : (Prod.fst ∘ fun p : String × Value => (to_upper_snake_case p.1, p.2))
      = to_upper_snake_case ∘ Prod.fst := rfl
  rw [hfun, ← List.map_map, hk]

theorem strip_wf (df : DF) (h : df.wf) : (strip_string_columns df).wf := by
  intro r hr
  unfold strip_string_columns at hr ⊢
  simp only [List.mem_map] at hr
  obtain ⟨r₀, hr₀, rfl⟩ := hr
  rw [Row.keys_mapVals]
  exact h r₀ hr₀

theorem ensure_cons (df : DF) (c : String) (cs : List String) :
    ensure_string_dtype df (c :: cs) =
      ensure_string_dtype (if c ∈ df.cols then mapColumn df c idClean else df) cs :=
  rfl

theorem ensure_cols (L : List String) :
    ∀ df : DF, (ensure_string_dtype df L).cols = df.cols := by
  induction L with
  | nil => intro df; rfl
  | cons c cs ih =>
    intro df
    rw [ensure_cons, ih]
    split <;> rfl

theorem ensure_wf (L : List String) :
    ∀ df : DF, df.wf → (ensure_string_dtype df L).wf := by
  induction L with
  | nil => intro df h; exact h
  | cons c cs ih =>
    intro df h
    rw [ensure_cons]
    split
    · exact ih _ (mapColumn_wf df c idClean h)
    · exact ih _ h

/-! ## The identifier-string invariant through `ensure_string_dtype` -/

theorem pyStrip_idem (s : String) : pyStrip (pyStrip s) = pyStrip s :=
  congrArg String.mk (pyStripL_fix _ (endsOK_pyStripL _))

theorem idClean_cleanVal (v : Value) : cleanVal (idClean v) := by
  unfold idClean
  split
  · exact ⟨"", rfl, by decide⟩
  · exact ⟨pyStrip (pyStr v), rfl, pyStrip_idem _⟩

theorem colVals_clean_mapColumn (df : DF) (c : String) :
    ∀ o ∈ colVals (mapColumn df c idClean) c, ∀ v, o = some v → cleanVal v := by
  intro o ho v hv
  rw [colVals_mapColumn_same] at ho
  rw [List.mem_map] at ho
  obtain ⟨o₀, _, rfl⟩ := ho
  cases o₀ with
  | none => exact Option.noConfusion hv
  | some v₀ =>
    injection hv with hv
    rw [← hv]
    exact idClean_cleanVal v₀

theorem ensure_pres_clean (L : List String) :
    ∀ (df : DF) (c : String),
      (∀ o ∈ colVals df c, ∀ v, o = some v → cleanVal v) →
      ∀ o ∈ colVals (ensure_string_dtype df L) c, ∀ v, o = some v → cleanVal v := by
  induction L with
  | nil => intro df c h; exact h
  | cons c' cs ih =>
    intro df c h
    rw [ensure_cons]
    split
    · by_cases he : c' = c
      · subst he
        exact ih _ _ (colVals_clean_mapColumn df _)
      · refine ih _ c ?_
        rw [colVals_mapColumn_other df c c' idClean he]
        exact h
    · exact ih _ c h

theorem ensure_clean (L : List String) :
    ∀ (df : DF) (c : String), c ∈ L → c ∈ df.cols →
      ∀ o ∈ colVals (ensure_string_dtype df L) c, ∀ v, o = some v → cleanVal v := by
  induction L with
  | nil => intro df c hc; exact absurd hc (by simp)
  | cons c' cs ih =>
    intro df c hc hcol
    rw [ensure_cons]
    by_cases he : c' = c
    · subst he
      rw [if_pos hcol]
      exact ensure_pres_clean cs _ _ (colVals_clean_mapColumn df _)
    · have hc' : c ∈ cs := by
        rcases List.mem_cons.mp hc with h | h
        · exact absurd h.symm he
        · exact h
      split
      · exact ih _ c hc' hcol
      · exact ih _ c hc' hcol

/-! ## Positional cell tracking through `ensure_string_dtype` -/

theorem ensure_cell_pos_pres (L : List String) (w : Value) (hw : idClean w = w) :
    ∀ (df : DF) (c : String) (i : Nat),
      (colVals df c).get? i = some (some w) →
      (colVals (ensure_string_dtype df L) c).get? i = some (some w) := by
  induction L with
  | nil => intro df c i h; exact h
  | cons c' cs ih =>
    intro df c i h
    rw [ensure_cons]
    split
    · by_cases he : c' = c
      · subst he
        refine ih _ _ i ?_
        rw [colVals_mapColumn_same, List.get?_map, h]
        simp [hw]
      · refine ih _ _ i ?_
        rw [colVals_mapColumn_other df c c' idClean he]
        exact h
    · exact ih _ _ i h

theorem ensure_cell_pos (L : List String) (v₀ w : Value)
    (hv : idClean v₀ = w) (hw : idClean w = w) :
    ∀ (df : DF) (c : String) (i : Nat), c ∈ L → c ∈ df.cols →
      (colVals df c).get? i = some (some v₀) →
      (colVals (ensure_string_dtype df L) c).get? i = some (some w) := by
  induction L with
  | nil => intro df c i hc; exact absurd hc (by simp)
  | cons c' cs ih =>
    intro df c i hc hcol h
    rw [ensure_cons]
    by_cases he : c' = c
    · subst he
      rw [if_pos hcol]
      refine ensure_cell_pos_pres cs w hw _ _ i ?_
      rw [colVals_mapColumn_same, List.get?_map, h]
      simp [hv]
    · have hc' : c ∈ cs := by
        rcases List.mem_cons.mp hc with h1 | h1
        · exact absurd h1.symm he
        · exact h1
      split
      · refine ih _ _ i hc' hcol ?_
        rw [colVals_mapColumn_other df c c' idClean he]
        exact h
      · exact ih _ _ i hc' hcol h

/-! ## Generic lemmas for the conditional column-mapping folds -/

theorem foldStep_cols (P : String → Bool) (f : Value → Value) :
    ∀ (cs : List String) (df : DF),
      (cs.foldl (fun d c' => if P c' then mapColumn d c' f else d) df).cols
        = df.cols := by
  intro cs
  induction cs with
  | nil => intro df; rfl
  | cons c' t ih =>
    intro df
    rw [List.foldl_cons, ih]
    split <;> rfl

theorem foldStep_unaffected (P : String → Bool) (f : Value → Value)
    (c : String) (hc : P c = false) :
    ∀ (cs : List String) (df : DF),
      colVals (cs.foldl (fun d c' => if P c' then mapColumn d c' f else d) df) c
        = colVals df c := by
  intro cs
  induction cs with
  | nil => intro df; rfl
  | cons c' t ih =>
    intro df
    rw [List.foldl_cons, ih]
    split
    · next hP =>
      refine colVals_mapColumn_other df c c' f ?_
      intro he
      rw [he, hc] at hP
      exact Bool.noConfusion hP
    · rfl

theorem foldStep_stable (P : String → Bool) (f : Value → Value) (c : String) :
    ∀ (cs : List String) (df : DF),
      (colVals df c).map (Option.map f) = colVals df c →
      colVals (cs.foldl (fun d c' => if P c' then mapColumn d c' f else d) df) c
        = colVals df c := by
  intro cs
  induction cs with
  | nil => intro df _; rfl
  | cons c' t ih =>
    intro df hfix
    rw [List.foldl_cons]
    split
    · by_cases he : c' = c
      · subst he
        rw [ih _ (by rw [colVals_mapColumn_same, hfix, hfix]),
          colVals_mapColumn_same, hfix]
      · rw [ih _ (by rw [colVals_mapColumn_other df c c' f he, hfix]),
          colVals_mapColumn_other df c c' f he]
    · exact ih _ hfix

theorem foldStep_processed (P : String → Bool) (f : Value → Value) (c : String)
    (hP : P c = true) (hidem : ∀ v, f (f v) = f v) :
    ∀ (cs : List String) (df : DF), c ∈ cs →
      colVals (cs.foldl (fun d c' => if P c' then mapColumn d c' f else d) df) c
        = (colVals df c).map (Option.map f) := by
  have hmapfix : ∀ (l : List (Option Value)),
      (l.map (Option.map f)).map (Option.map f) = l.map (Option.map f) := by
    intro l
    rw [List.map_map]
    apply List.map_congr_left
    intro o _
    cases o with
    | none => rfl
    | some v => simp [hidem v]
  intro cs
  induction cs with
  | nil => intro df hc; exact absurd hc (by simp)
  | cons c' t ih =>
    intro df hc
    rw [List.foldl_cons]
    by_cases he : c' = c
    · subst he
      rw [if_pos hP]
      rw [foldStep_stable P f c' t _ (by rw [colVals_mapColumn_same, hmapfix]),
        colVals_mapColumn_same]
    · have hc' : c ∈ t := by
        rcases List.mem_cons.mp hc with h1 | h1
        · exact absurd h1.symm he
        · exact h1
      split
      · rw [ih _ hc', colVals_mapColumn_other df c c' f he]
      · exact ih _ hc'

/-! ## Idempotence of the cell coercions -/

theorem dateCoerce_idem (v : Value) : dateCoerce (dateCoerce v) = dateCoerce v := by
  cases v with
  | str s =>
    simp only [dateCoerce]
    cases parseDateStr s <;> rfl
  | num q => rfl
  | date d => rfl
  | bool b => rfl
  | null => rfl

theorem numCoerce_idem (v : Value) : numCoerce (numCoerce v) = numCoerce v := by
  cases v with
  | str s =>
    simp only [numCoerce]
    cases parseNumStr s <;> rfl
  | num q => rfl
  | date d => rfl
  | bool b => rfl
  | null => rfl

theorem numCoerce_notNA (o : Option Value) (h : notNA (o.map numCoerce) = true) :
    notNA o = true := by
  cases o with
  | none => exact absurd h (by simp [notNA])
  | some v =>
    cases v with
    | null => exact absurd h (by simp [notNA, numCoerce, Value.isNull])
    | str s => rfl
    | num q => rfl
    | date d => rfl
    | bool b => rfl

/-! ## The issue-log buckets -/

theorem bucket_appendIssue_same (log : IssueLog) (k m : String) :
    bucket (appendIssue log k m) k = bucket log k ++ [m] := by
  induction log with
  | nil => simp [appendIssue, bucket]
  | cons p rest ih =>
    obtain ⟨k', msgs⟩ := p
    simp only [appendIssue]
    by_cases hk : k' = k
    · rw [if_pos hk]
      subst hk
      simp [bucket, List.find?_cons_of_pos]
    · rw [if_neg hk]
      unfold bucket at ih ⊢
      rw [List.find?_cons_of_neg _ (by simpa using hk),
        List.find?_cons_of_neg _ (by simpa using hk)]
      exact ih

theorem bucket_appendIssue_other (log : IssueLog) (k k' m : String)
    (h : ¬ (k' = k)) : bucket (appendIssue log k' m) k = bucket log k := by
  induction log with
  | nil =>
    unfold appendIssue bucket
    rw [List.find?_cons_of_neg _ (by simpa using h)]
  | cons p rest ih =>
    obtain ⟨k₀, msgs⟩ := p
    simp only [appendIssue]
    by_cases hk : k₀ = k'
    · rw [if_pos hk]
      subst hk
      unfold bucket
      rw [List.find?_cons_of_neg _ (by simpa using h),
        List.find?_cons_of_neg _ (by simpa using h)]
    · rw [if_neg hk]
      by_cases hkk : k₀ = k
      · unfold bucket
        rw [List.find?_cons_of_pos _ (by simpa using hkk),
          List.find?_cons_of_pos _ (by simpa using hkk)]
      · unfold bucket at ih ⊢
        rw [List.find?_cons_of_neg _ (by simpa using hkk),
          List.find?_cons_of_neg _ (by simpa using hkk)]
        exact ih

theorem bucket_appendIssue_mem (log : IssueLog) (k k' m m' : String)
    (h : m ∈ bucket log k) : m ∈ bucket (appendIssue log k' m') k := by
  by_cases hk : k' = k
  · subst hk
    rw [bucket_appendIssue_same]
    exact List.mem_append_left _ h
  · rw [bucket_appendIssue_other log k k' m' hk]
    exact h

/-! ## The `convert_numeric_columns` loop -/

theorem cncGo_cols (patterns : List String) :
    ∀ (cs : List String) (df : DF) (log : IssueLog),
      (convertNumericGo patterns cs df log).1.cols = df.cols := by
  intro cs
  induction cs with
  | nil => intro df log; rfl
  | cons c' t ih =>
    intro df log
    simp only [convertNumericGo]
    split
    · rw [ih]; rfl
    · exact ih df log

theorem convert_numeric_cols (df : DF) (patterns : List String)
    (log : IssueLog) :
    (convert_numeric_columns df patterns log).1.cols = df.cols :=
  cncGo_cols patterns df.cols df log

theorem cncGo_bucket_mono (patterns : List String) :
    ∀ (cs : List String) (df : DF) (log : IssueLog) (k m : String),
      m ∈ bucket log k → m ∈ bucket (convertNumericGo patterns cs df log).2 k := by
  intro cs
  induction cs with
  | nil => intro df log k m h; exact h
  | cons c' t ih =>
    intro df log k m h
    simp only [convertNumericGo]
    split
    · apply ih
      split
      · exact bucket_appendIssue_mem log k _ m _ h
      · exact h
    · exact ih df log k m h

theorem cncGo_unaffected (patterns : List String) (c : String)
    (hne : shouldCoerceNumeric patterns c = false) :
    ∀ (cs : List String) (df : DF) (log : IssueLog),
      colVals (convertNumericGo patterns cs df log).1 c = colVals df c := by
  intro cs
  induction cs with
  | nil => intro df log; rfl
  | cons c' t ih =>
    intro df log
    simp only [convertNumericGo]
    split
    · next hP =>
      rw [ih]
      refine colVals_mapColumn_other df c c' numCoerce ?_
      intro he
      rw [he, hne] at hP
      exact Bool.noConfusion hP
    · exact ih df log

theorem mapOptionNumCoerce_idem (l : List (Option Value)) :
    (l.map (Option.map numCoerce)).map (Option.map numCoerce)
      = l.map (Option.map numCoerce) := by
  rw [List.map_map]
  apply List.map_congr_left
  intro o _
  cases o with
  | none => rfl
  | some v => simp [numCoerce_idem v]

theorem cncGo_stable (patterns : List String) (c : String) :
    ∀ (cs : List String) (df : DF) (log : IssueLog),
      (colVals df c).map (Option.map numCoerce) = colVals df c →
      colVals (convertNumericGo patterns cs df log).1 c = colVals df c := by
  intro cs
  induction cs with
  | nil => intro df log _; rfl
  | cons c' t ih =>
    intro df log hfix
    simp only [convertNumericGo]
    split
    · by_cases he : c' = c
      · subst he
        rw [ih _ _ (by rw [colVals_mapColumn_same, hfix, hfix]),
          colVals_mapColumn_same, hfix]
      · rw [ih _ _ (by rw [colVals_mapColumn_other df c c' numCoerce he, hfix]),
          colVals_mapColumn_other df c c' numCoerce he]
    · exact ih df log hfix

theorem countP_split_numCoerce (l : List (Option Value)) :
    l.countP notNA = (l.map (Option.map numCoerce)).countP notNA + lostCount l := by
  induction l with
  | nil => rfl
  | cons o t ih =>
    have key : (if notNA o = true then (1 : Nat) else 0)
        = (if notNA (o.map numCoerce) = true then 1 else 0)
          + (if (notNA o && !notNA (o.map numCoerce)) = true then 1 else 0) := by
      by_cases hm : notNA (o.map numCoerce) = true
      · have ho := numCoerce_notNA o hm
        simp [hm, ho]
      · rw [Bool.not_eq_true] at hm
        by_cases ho : notNA o = true
        · simp [hm, ho]
        · rw [Bool.not_eq_true] at ho
          simp [hm, ho]
    simp only [lostCount, List.map_cons, List.countP_cons] at ih ⊢
    omega

theorem countNotNA_split (df : DF) (c : String) :
    countNotNA df c
      = countNotNA (mapColumn df c numCoerce) c + lostCount (colVals df c) := by
  unfold countNotNA
  rw [colVals_mapColumn_same]
  exact countP_split_numCoerce (colVals df c)

theorem cncGo_spec (patterns : List String) (c : String)
    (hm : shouldCoerceNumeric patterns c = true) :
    ∀ (cs : List String) (df : DF) (log : IssueLog), c ∈ cs →
      colVals (convertNumericGo patterns cs df log).1 c
        = (colVals df c).map (Option.map numCoerce)
      ∧ (0 < lostCount (colVals df c) →
          coercionMsg c (lostCount (colVals df c))
            ∈ bucket (convertNumericGo patterns cs df log).2 "numeric_coercion") := by
  intro cs
  induction cs with
  | nil => intro df log hc; exact absurd hc (by simp)
  | cons c' t ih =>
    intro df log hc
    simp only [convertNumericGo]
    by_cases he : c' = c
    · subst he
      rw [if_pos hm]
      have hsplit := countNotNA_split df c'
      constructor
      · rw [cncGo_stable patterns c' t _ _
          (by rw [colVals_mapColumn_same]; exact mapOptionNumCoerce_idem _),
          colVals_mapColumn_same]
      · intro hlost
        have hlt : countNotNA (mapColumn df c' numCoerce) c' < countNotNA df c' := by
          omega
        rw [if_pos hlt]
        have hdiff : countNotNA df c' - countNotNA (mapColumn df c' numCoerce) c'
            = lostCount (colVals df c') := by omega
        rw [hdiff]
        apply cncGo_bucket_mono
        rw [bucket_appendIssue_same]
        exact List.mem_append_right _ (by simp)
    · have hc' : c ∈ t := by
        rcases List.mem_cons.mp hc with h1 | h1
        · exact absurd h1.symm he
        · exact h1
      split
      · obtain ⟨h1, h2⟩ := ih (mapColumn df c' numCoerce)
          (if countNotNA (mapColumn df c' numCoerce) c' < countNotNA df c' then
            appendIssue log "numeric_coercion"
              (coercionMsg c' (countNotNA df c' - countNotNA (mapColumn df c' numCoerce) c'))
          else log) hc'
        rw [colVals_mapColumn_other df c c' numCoerce he] at h1 h2
        exact ⟨h1, h2⟩
      · exact ih df log hc'

/-! ## Identifier columns are never date- or numeric-matched -/

theorem id_cols_not_date (c : String) (hc : c ∈ ID_CODE_COLUMNS) :
    shouldParseDate c = false := by
  have hall : ∀ x ∈ ID_CODE_COLUMNS, shouldParseDate x = false := by decide
  exact hall c hc

theorem id_cols_not_numeric (patterns : List String) (c : String)
    (hc : c ∈ ID_CODE_COLUMNS) : shouldCoerceNumeric patterns c = false := by
  unfold shouldCoerceNumeric
  rw [show ID_CODE_COLUMNS.contains c = true from List.elem_eq_true_of_mem hc]
  simp

/-! ## Unfolding `apply_global_cleanup` and tracing its rows -/

theorem drops_row_origin (E : DF) (r : Row)
    (h5 : r ∈ (drop_metadata_columns (drop_all_null_columns E)
      METADATA_COLUMNS_TO_DROP).rows) :
    ∃ r₃ ∈ E.rows,
      r = Row.filterCols (fun c => !METADATA_COLUMNS_TO_DROP.contains c)
            (Row.filterCols (fun c => !allNA E c) r₃) := by
  have h5' : r ∈ ((E.rows.map (Row.filterCols (fun c => !allNA E c))).map
      (Row.filterCols (fun c => !METADATA_COLUMNS_TO_DROP.contains c))) := h5
  simp only [List.mem_map] at h5'
  obtain ⟨r₄, ⟨r₃, hr₃, rfl⟩, rfl⟩ := h5'
  exact ⟨r₃, hr₃, rfl⟩

theorem agc_row_origin (df : DF) (t : String) (r : Row)
    (h : r ∈ (apply_global_cleanup df t).rows) :
    ∃ r₃ ∈ (ensure_string_dtype (strip_string_columns
        (standardize_column_names df)) ID_CODE_COLUMNS).rows,
      r = Row.filterCols (fun c => !METADATA_COLUMNS_TO_DROP.contains c)
            (Row.filterCols (fun c => !allNA (ensure_string_dtype
              (strip_string_columns (standardize_column_names df))
              ID_CODE_COLUMNS) c) r₃) := by
  have h5 : r ∈ (cleaned_before_dedup df).rows := by
    unfold apply_global_cleanup at h
    split at h
    · exact deduplicate_mem _ _ r h
    · exact h
  have h5' : r ∈ (drop_metadata_columns (drop_all_null_columns
      (ensure_string_dtype (strip_string_columns (standardize_column_names df))
        ID_CODE_COLUMNS)) METADATA_COLUMNS_TO_DROP).rows := h5
  exact drops_row_origin _ r h5'

/-- C4: name normalization (`to_upper_snake_case`) is idempotent; it maps
"Id Num" to "ID_NUM", "giftAmt" to "GIFT_AMT" and "  Donor  ID " to
"DONOR_ID"; it is total and yields the empty string on empty or
whitespace-only input. -/
theorem claim4_normalizer_idempotent :
    (∀ s : String, to_upper_snake_case (to_upper_snake_case s)
      = to_upper_snake_case s)
    ∧ to_upper_snake_case "Id Num" = "ID_NUM"
    ∧ to_upper_snake_case "giftAmt" = "GIFT_AMT"
    ∧ to_upper_snake_case "  Donor  ID " = "DONOR_ID"
    ∧ to_upper_snake_case "" = ""
    ∧ to_upper_snake_case "   " = "" :=
  ⟨to_upper_snake_case_idem, by decide, by decide, by decide, by decide,
    by decide⟩

/-- C2: every identifier column present after the full cleaning pipeline
holds only strings stripped of surrounding whitespace; numeric coercion
and date parsing never touch an identifier column whatever the pattern
list; the identifier coercion turns a missing cell into the empty string;
and `"000123"` survives the identifier coercion with its leading zeros. -/
theorem claim2_identifier_columns_strings :
    (∀ (df : DF) (t c : String), df.wf → c ∈ ID_CODE_COLUMNS →
      ∀ r ∈ (apply_global_cleanup df t).rows, ∀ v, Row.get r c = some v →
        ∃ s, v = Value.str s ∧ pyStrip s = s)
    ∧ (∀ (df : DF) (patterns : List String) (log : IssueLog) (c : String),
        c ∈ ID_CODE_COLUMNS →
        colVals (convert_numeric_columns df patterns log).1 c = colVals df c)
    ∧ (∀ (df : DF) (log : IssueLog) (c : String), c ∈ ID_CODE_COLUMNS →
        colVals (parse_date_columns df log).1 c = colVals df c)
    ∧ (∀ (df : DF) (c : String) (i : Nat), c ∈ ID_CODE_COLUMNS →
        c ∈ df.cols →
        (colVals df c).get? i = some (some Value.null) →
        (colVals (ensure_string_dtype df ID_CODE_COLUMNS) c).get? i
          = some (some (Value.str "")))
    ∧ idClean (Value.str "000123") = Value.str "000123" := by
  refine ⟨?_, ?_, ?_, ?_, by decide⟩
  · intro df t c hwf hc r hr v hv
    obtain ⟨r₃, hr₃, rfl⟩ := agc_row_origin df t r hr
    rw [Row.get_filterCols] at hv
    split at hv
    · rw [Row.get_filterCols] at hv
      split at hv
      · have hwfE : (ensure_string_dtype (strip_string_columns
            (standardize_column_names df)) ID_CODE_COLUMNS).wf :=
          ensure_wf _ _ (strip_wf _ (standardize_wf _ hwf))
        have hkeys := hwfE r₃ hr₃
        have hcol : c ∈ (ensure_string_dtype (strip_string_columns
            (standardize_column_names df)) ID_CODE_COLUMNS).cols := by
          rw [← hkeys]
          exact Row.get_some_mem_keys r₃ c v hv
        rw [ensure_cols] at hcol
        exact ensure_clean ID_CODE_COLUMNS _ c hc hcol (Row.get r₃ c)
          (List.mem_map_of_mem _ hr₃) v hv
      · exact Option.noConfusion hv
    · exact Option.noConfusion hv
  · intro df patterns log c hc
    exact cncGo_unaffected patterns c (id_cols_not_numeric patterns c hc)
      df.cols df log
  · intro df log c hc
    exact foldStep_unaffected shouldParseDate dateCoerce c
      (id_cols_not_date c hc) df.cols df
  · intro df c i hc hcol hv
    exact ensure_cell_pos ID_CODE_COLUMNS Value.null (Value.str "")
      (by decide) (by decide) df c i hc hcol hv

/-- C2 witness: the pipeline on a concrete table with `ID_NUM` value
`" 000123 "`: the cleaned cell is a stripped string. -/
theorem claim2_witness :
    ∃ s, Value.str "000123" = Value.str s ∧ pyStrip s = s := by
  have h := claim2_identifier_columns_strings.1 leadingZeroEx "zzz" "ID_NUM"
    (by decide) (by decide)
    [("ID_NUM", Value.str "000123"), ("GIFT_TRAN_AMT", Value.str "7")]
    (by decide) (Value.str "000123") (by decide)
  exact h

/-- C10: after the identifier-string coercion, a cell of an identifier
column holding exactly the text `"nan"` has become the empty string. -/
theorem claim10_nan_text_becomes_empty (df : DF) (c : String) (i : Nat)
    (hc : c ∈ ID_CODE_COLUMNS) (hcol : c ∈ df.cols)
    (hv : (colVals df c).get? i = some (some (Value.str "nan"))) :
    (colVals (ensure_string_dtype df ID_CODE_COLUMNS) c).get? i
      = some (some (Value.str "")) :=
  ensure_cell_pos ID_CODE_COLUMNS (Value.str "nan") (Value.str "")
    (by decide) (by decide) df c i hc hcol hv

/-- C10 witness: a `DONOR_ID` cell that is literally `"nan"` becomes `""`. -/
theorem claim10_witness :
    (colVals (ensure_string_dtype nanTextEx ID_CODE_COLUMNS) "DONOR_ID").get? 0
      = some (some (Value.str "")) :=
  claim10_nan_text_becomes_empty nanTextEx "DONOR_ID" 0 (by decide) (by decide)
    (by decide)

/-! ## Natural-key facts -/

theorem lookupNK_mem (t : String) (keys : List String)
    (h : lookupNK t = some keys) : (t, keys) ∈ NATURAL_KEYS := by
  unfold lookupNK at h
  cases hf : NATURAL_KEYS.find? (fun p => decide (p.1 = t)) with
  | none => rw [hf] at h; exact Option.noConfusion h
  | some p =>
    rw [hf] at h
    have hm := List.mem_of_find?_eq_some hf
    have hp := List.find?_some hf
    simp only [decide_eq_true_eq] at hp
    injection h with h
    rw [← hp, ← h]
    exact hm

theorem lookupNK_ne_nil (t : String) (keys : List String)
    (h : lookupNK t = some keys) : keys ≠ [] := by
  have hall : ∀ p ∈ NATURAL_KEYS, p.2 ≠ [] := by decide
  exact hall (t, keys) (lookupNK_mem t keys h)

theorem dedup_all_present (keys : List String) (df : DF) (hne : keys ≠ [])
    (hsub : ∀ k ∈ keys, k ∈ df.cols) :
    deduplicate_by_key df keys = dropDupTotal df keys := by
  unfold deduplicate_by_key
  have hfil : keys.filter (fun c => decide (c ∈ df.cols)) = keys :=
    List.filter_eq_self.mpr (fun a ha => by simpa using hsub a ha)
  simp only [hfil]
  rw [if_pos hne]

/-- C1: for a table with a declared natural key whose key columns are all
present, deduplication leaves zero duplicate key tuples and retains, for
each key value, the first-encountered row in original order — both for
`deduplicate_by_key` itself and for the cleaned output of
`apply_global_cleanup`; and the campaign dimension built from a source
with one code appearing three times keeps exactly the first row. -/
theorem claim1_dedup_unique_first_kept :
    (∀ (t : String) (keys : List String) (df : DF),
      lookupNK t = some keys → (∀ k ∈ keys, k ∈ df.cols) →
      (deduplicate_by_key df keys).rows.Pairwise
        (fun a b => keyProj keys a ≠ keyProj keys b)
      ∧ ∀ r ∈ (deduplicate_by_key df keys).rows,
          df.rows.find? (fun x => decide (keyProj keys x = keyProj keys r))
            = some r)
    ∧ (∀ (t : String) (keys : List String) (df : DF),
      lookupNK t = some keys →
      (∀ k ∈ keys, k ∈ (apply_global_cleanup df t).cols) →
      (apply_global_cleanup df t).rows.Pairwise
        (fun a b => keyProj keys a ≠ keyProj keys b))
    ∧ build_dim_campaign campDupEx [] = Except.ok (campDedupEx, []) := by
  refine ⟨?_, ?_, rfl⟩
  · intro t keys df hk hsub
    rw [dedup_all_present keys df (lookupNK_ne_nil t keys hk) hsub]
    exact ⟨dropDupAux_pairwise keys df.rows [],
      fun r hr => (dropDupAux_mem_spec keys df.rows [] r hr).2⟩
  · intro t keys df hk hsub
    have hstep : ∀ E : DF, (∀ k ∈ keys, k ∈ (deduplicate_by_key E keys).cols) →
        (deduplicate_by_key E keys).rows.Pairwise
          (fun a b => keyProj keys a ≠ keyProj keys b) := by
      intro E hsubE
      rw [deduplicate_cols] at hsubE
      rw [dedup_all_present keys E (lookupNK_ne_nil t keys hk) hsubE]
      exact dropDupAux_pairwise keys E.rows []
    have hagc : apply_global_cleanup df t
        = deduplicate_by_key (cleaned_before_dedup df) keys := by
      unfold apply_global_cleanup
      rw [hk]
    rw [hagc] at hsub ⊢
    exact hstep (cleaned_before_dedup df) hsub

/-- C1 witness: the campaign table deduplicated on its declared key. -/
theorem claim1_witness :
    (deduplicate_by_key campDupEx ["CAMPAIGN_CDE"]).rows.Pairwise
      (fun a b => keyProj ["CAMPAIGN_CDE"] a ≠ keyProj ["CAMPAIGN_CDE"] b) :=
  (claim1_dedup_unique_first_kept.1 "campaign" ["CAMPAIGN_CDE"] campDupEx
    (by decide) (by decide)).1

/-- C5 counterexample: for `gift_master` the declared key is
`[GIFT_GROUP_NUM, GIFT_NUM]`; on a table having only `GIFT_GROUP_NUM`,
`deduplicate_by_key` is not a no-op — it deduplicates on the present
subset and shrinks two rows to one. -/
theorem claim5_counterexample :
    lookupNK "gift_master" = some ["GIFT_GROUP_NUM", "GIFT_NUM"]
    ∧ "GIFT_NUM" ∉ partialKeyEx.cols
    ∧ partialKeyEx.rows.length = 2
    ∧ (deduplicate_by_key partialKeyEx ["GIFT_GROUP_NUM", "GIFT_NUM"]).rows.length = 1
    ∧ ¬ (deduplicate_by_key partialKeyEx ["GIFT_GROUP_NUM", "GIFT_NUM"]
          = partialKeyEx) := by
  refine ⟨rfl, by decide, rfl, rfl, by decide⟩

/-- C5 amended: `deduplicate_by_key` never raises; it is a no-op exactly
when none of the declared key columns is present, and otherwise it
deduplicates on the present subset of the key, keeping first
occurrences. -/
theorem claim5_amended_partial_key :
    (∀ (df : DF) (keys : List String), (∀ k ∈ keys, k ∉ df.cols) →
      deduplicate_by_key df keys = df)
    ∧ (∀ (df : DF) (keys : List String),
        keys.filter (fun c => decide (c ∈ df.cols)) ≠ [] →
        (deduplicate_by_key df keys).rows.Pairwise
          (fun a b => keyProj (keys.filter (fun c => decide (c ∈ df.cols))) a
            ≠ keyProj (keys.filter (fun c => decide (c ∈ df.cols))) b)
        ∧ ∀ r ∈ (deduplicate_by_key df keys).rows,
            df.rows.find? (fun x => decide
              (keyProj (keys.filter (fun c => decide (c ∈ df.cols))) x
                = keyProj (keys.filter (fun c => decide (c ∈ df.cols))) r))
              = some r) := by
  constructor
  · intro df keys habs
    unfold deduplicate_by_key
    rw [if_neg]
    simp only [ne_eq, Decidable.not_not]
    rw [List.filter_eq_nil_iff]
    intro a ha
    simpa using habs a ha
  · intro df keys hne
    unfold deduplicate_by_key
    rw [if_pos hne]
    exact ⟨dropDupAux_pairwise _ df.rows [],
      fun r hr => (dropDupAux_mem_spec _ df.rows [] r hr).2⟩

/-! ## All-null columns -/

theorem map_eq_self_mem {α : Type} (f : α → α) (l : List α)
    (h : l.map f = l) : ∀ x ∈ l, f x = x := by
  induction l with
  | nil => intro x hx; exact absurd hx (by simp)
  | cons a t ih =>
    rw [List.map_cons] at h
    injection h with h1 h2
    intro x hx
    rcases List.mem_cons.mp hx with rfl | hx
    · exact h1
    · exact ih h2 x hx

theorem stdNames_fix (df : DF) (hwf : df.wf)
    (hcanon : df.cols.map to_upper_snake_case = df.cols) :
    standardize_column_names df = df := by
  unfold standardize_column_names
  cases df with
  | mk cols rows =>
    simp only [DF.mk.injEq]
    refine ⟨hcanon, ?_⟩
    apply map_fix
    intro r hr
    apply map_fix
    intro p hp
    have hkeys : Row.keys r = cols := hwf r hr
    have hpk : p.1 ∈ cols := by
      rw [← hkeys]
      exact List.mem_map_of_mem Prod.fst hp
    have := map_eq_self_mem to_upper_snake_case cols hcanon p.1 hpk
    cases p with
    | mk k v => simp only [Prod.mk.injEq]; exact ⟨this, trivial⟩

theorem colVals_strip (df : DF) (c : String) :
    colVals (strip_string_columns df) c
      = (colVals df c).map (Option.map stripCell) := by
  unfold colVals strip_string_columns
  simp only [List.map_map]
  apply List.map_congr_left
  intro r _
  exact Row.get_mapVals r c stripCell

theorem ensure_unaffected (L : List String) (c : String) (hc : c ∉ L) :
    ∀ df : DF, colVals (ensure_string_dtype df L) c = colVals df c := by
  induction L with
  | nil => intro df; rfl
  | cons c' cs ih =>
    intro df
    have hc' : c ∉ cs := fun h => hc (List.mem_cons_of_mem c' h)
    have hne : ¬ (c' = c) := fun h => hc (by rw [h]; exact List.mem_cons_self _ _)
    rw [ensure_cons]
    split
    · rw [ih hc', colVals_mapColumn_other df c c' idClean hne]
    · exact ih hc' df

theorem allNA_iff (df : DF) (c : String) :
    allNA df c = true ↔ ∀ o ∈ colVals df c, notNA o = false := by
  unfold allNA colVals
  rw [List.all_eq_true]
  constructor
  · intro h o ho
    rw [List.mem_map] at ho
    obtain ⟨r, hr, rfl⟩ := ho
    have := h r hr
    simpa using this
  · intro h r hr
    have := h (Row.get r c) (List.mem_map_of_mem _ hr)
    simpa using this

theorem ensure_const_pres (L : List String) (w : Value) (hw : idClean w = w) :
    ∀ (df : DF) (c : String), (∀ o ∈ colVals df c, o = some w) →
      ∀ o ∈ colVals (ensure_string_dtype df L) c, o = some w := by
  induction L with
  | nil => intro df c h; exact h
  | cons c' cs ih =>
    intro df c h
    rw [ensure_cons]
    split
    · by_cases he : c' = c
      · subst he
        refine ih _ _ ?_
        intro o ho
        rw [colVals_mapColumn_same, List.mem_map] at ho
        obtain ⟨o₀, ho₀, rfl⟩ := ho
        rw [h o₀ ho₀]
        simp [hw]
      · refine ih _ _ ?_
        rw [colVals_mapColumn_other df c c' idClean he]
        exact h
    · exact ih _ _ h

theorem ensure_const (L : List String) (v₀ w : Value)
    (hv : idClean v₀ = w) (hw : idClean w = w) :
    ∀ (df : DF) (c : String), c ∈ L → c ∈ df.cols →
      (∀ o ∈ colVals df c, o = some v₀) →
      ∀ o ∈ colVals (ensure_string_dtype df L) c, o = some w := by
  induction L with
  | nil => intro df c hc; exact absurd hc (by simp)
  | cons c' cs ih =>
    intro df c hc hcol h
    rw [ensure_cons]
    by_cases he : c' = c
    · subst he
      rw [if_pos hcol]
      refine ensure_const_pres cs w hw _ _ ?_
      intro o ho
      rw [colVals_mapColumn_same, List.mem_map] at ho
      obtain ⟨o₀, ho₀, rfl⟩ := ho
      rw [h o₀ ho₀]
      simp [hv]
    · have hc' : c ∈ cs := by
        rcases List.mem_cons.mp hc with h1 | h1
        · exact absurd h1.symm he
        · exact h1
      split
      · refine ih _ _ hc' hcol ?_
        rw [colVals_mapColumn_other df c c' idClean he]
        exact h
      · exact ih _ _ hc' hcol h

theorem ensure_rows_len (L : List String) :
    ∀ df : DF, (ensure_string_dtype df L).rows.length = df.rows.length := by
  induction L with
  | nil => intro df; rfl
  | cons c' cs ih =>
    intro df
    rw [ensure_cons, ih]
    split
    · exact List.length_map _ _
    · rfl

theorem agc_cols (df : DF) (t : String) :
    (apply_global_cleanup df t).cols = (cleaned_before_dedup df).cols := by
  unfold apply_global_cleanup
  split
  · rw [deduplicate_cols]
  · rfl

theorem dropsCols_mem (E : DF) (c : String) :
    c ∈ (drop_metadata_columns (drop_all_null_columns E)
        METADATA_COLUMNS_TO_DROP).cols
      ↔ c ∈ E.cols ∧ allNA E c = false
        ∧ METADATA_COLUMNS_TO_DROP.contains c = false := by
  unfold drop_metadata_columns drop_all_null_columns
  simp only [List.mem_filter, Bool.not_eq_true']
  tauto

/-- C6 counterexample: a table whose identifier column `ID_NUM` is null
in every row still has `ID_NUM` in the cleaned output's column set — the
identifier coercion (step 3) turns the nulls into empty strings before
the all-null drop (step 4). -/
theorem claim6_counterexample :
    (∀ o ∈ colVals allNullIdEx "ID_NUM", o = some Value.null)
    ∧ "ID_NUM" ∈ ID_CODE_COLUMNS
    ∧ "ID_NUM" ∈ (apply_global_cleanup allNullIdEx "zzz").cols := by
  refine ⟨by decide, by decide, by decide⟩

/-- C6 amended: in the cleaned output of a non-empty table with canonical
column names, a column that is null in every row is dropped when it is
not a declared identifier column; a declared identifier column survives
with every cell the empty string, because the identifier coercion
precedes the all-null drop. -/
theorem claim6_amended_all_null (df : DF) (t c : String) (hwf : df.wf)
    (hcanon : df.cols.map to_upper_snake_case = df.cols)
    (hc : c ∈ df.cols) (hrows : df.rows ≠ [])
    (hnull : ∀ o ∈ colVals df c, o = some Value.null) :
    (c ∉ ID_CODE_COLUMNS → c ∉ (apply_global_cleanup df t).cols)
    ∧ (c ∈ ID_CODE_COLUMNS → c ∈ (apply_global_cleanup df t).cols
        ∧ ∀ r ∈ (apply_global_cleanup df t).rows,
            Row.get r c = some (Value.str "")) := by
  have hstd : standardize_column_names df = df := stdNames_fix df hwf hcanon
  have hstrip_null : ∀ o ∈ colVals (strip_string_columns df) c,
      o = some Value.null := by
    intro o ho
    rw [colVals_strip, List.mem_map] at ho
    obtain ⟨o₀, ho₀, rfl⟩ := ho
    rw [hnull o₀ ho₀]
    rfl
  have hcbd : (cleaned_before_dedup df).cols
      = (drop_metadata_columns (drop_all_null_columns
          (ensure_string_dtype (strip_string_columns
            (standardize_column_names df)) ID_CODE_COLUMNS))
          METADATA_COLUMNS_TO_DROP).cols := rfl
  rw [hstd] at hcbd
  constructor
  · intro hcid
    have hEnull : colVals (ensure_string_dtype (strip_string_columns df)
        ID_CODE_COLUMNS) c = colVals (strip_string_columns df) c :=
      ensure_unaffected ID_CODE_COLUMNS c hcid (strip_string_columns df)
    have hall : allNA (ensure_string_dtype (strip_string_columns df)
        ID_CODE_COLUMNS) c = true := by
      rw [allNA_iff, hEnull]
      intro o ho
      rw [hstrip_null o ho]
      rfl
    intro hmem
    rw [agc_cols, hcbd, dropsCols_mem] at hmem
    rw [hall] at hmem
    exact Bool.noConfusion hmem.2.1
  · intro hcid
    have hcolE : c ∈ (strip_string_columns df).cols := hc
    have hcells : ∀ o ∈ colVals (ensure_string_dtype (strip_string_columns df)
        ID_CODE_COLUMNS) c, o = some (Value.str "") :=
      ensure_const ID_CODE_COLUMNS Value.null (Value.str "") (by decide)
        (by decide) (strip_string_columns df) c hcid hcolE hstrip_null
    have hErows : (ensure_string_dtype (strip_string_columns df)
        ID_CODE_COLUMNS).rows ≠ [] := by
      intro hn
      have hl := ensure_rows_len ID_CODE_COLUMNS (strip_string_columns df)
      rw [hn] at hl
      have : df.rows.length = 0 := by
        simpa [strip_string_columns] using hl.symm
      exact hrows (List.length_eq_zero.mp this)
    have hall : allNA (ensure_string_dtype (strip_string_columns df)
        ID_CODE_COLUMNS) c = false := by
      cases hE : (ensure_string_dtype (strip_string_columns df)
          ID_CODE_COLUMNS).rows with
      | nil => exact absurd hE hErows
      | cons r0 rest =>
        have ho : Row.get r0 c ∈ colVals (ensure_string_dtype
            (strip_string_columns df) ID_CODE_COLUMNS) c := by
          unfold colVals
          rw [hE]
          exact List.mem_map_of_mem _ (List.mem_cons_self _ _)
        have := hcells _ ho
        by_contra hcontra
        rw [Bool.not_eq_false] at hcontra
        have hno := (allNA_iff _ c).mp hcontra _ ho
        rw [this] at hno
        simp [notNA, Value.isNull] at hno
    have hmeta : METADATA_COLUMNS_TO_DROP.contains c = false := by
      have hdisj : ∀ x ∈ ID_CODE_COLUMNS,
          METADATA_COLUMNS_TO_DROP.contains x = false := by decide
      exact hdisj c hcid
    have hcolsOut : c ∈ (apply_global_cleanup df t).cols := by
      rw [agc_cols, hcbd, dropsCols_mem]
      exact ⟨by rw [ensure_cols]; exact hcolE, hall, hmeta⟩
    refine ⟨hcolsOut, ?_⟩
    intro r hr
    obtain ⟨r₃, hr₃, rfl⟩ := agc_row_origin df t r hr
    rw [hstd] at hr₃
    rw [Row.get_filterCols, if_pos (by rw [hmeta]; rfl),
      Row.get_filterCols, if_pos (by rw [hstd, hall]; rfl)]
    exact hcells _ (List.mem_map_of_mem _ hr₃)

/-- C6 amended witness: the all-null identifier table. -/
theorem claim6_amended_witness :
    "ID_NUM" ∈ (apply_global_cleanup allNullIdEx "zzz").cols :=
  ((claim6_amended_all_null allNullIdEx "zzz" "ID_NUM" (by decide) (by decide)
    (by decide) (by decide) (by decide)).2 (by decide)).1

/-- C7 counterexample: an unparseable value in a date column is coerced
to null, but nothing is appended to the `"date_parsing"` bucket of the
issue log — the claimed logging of every coercion failure does not
happen, because `errors="coerce"` never raises. -/
theorem claim7_counterexample :
    colVals badDateEx "GIFT_DTE" = [some (Value.str "garbage")]
    ∧ parseDateStr "garbage" = none
    ∧ colVals (parse_date_columns badDateEx []).1 "GIFT_DTE" = [some Value.null]
    ∧ (parse_date_columns badDateEx []).2 = []
    ∧ bucket (parse_date_columns badDateEx []).2 "date_parsing" = [] := by
  refine ⟨rfl, rfl, by decide, rfl, rfl⟩

/-- C7 amended: a date-classified column is element-wise coerced (an
unparseable value becomes null) and the run never fails on a bad date
value, but the issue log passes through unchanged — no `"date_parsing"`
entry is recorded for value-level failures. -/
theorem claim7_amended_dates_coerce_silently :
    (∀ (df : DF) (log : IssueLog), (parse_date_columns df log).2 = log)
    ∧ (∀ (df : DF) (log : IssueLog) (c : String), shouldParseDate c = true →
        c ∈ df.cols →
        colVals (parse_date_columns df log).1 c
          = (colVals df c).map (Option.map dateCoerce))
    ∧ (∀ s : String, parseDateStr s = none →
        dateCoerce (Value.str s) = Value.null) := by
  refine ⟨fun df log => rfl, ?_, ?_⟩
  · intro df log c hP hc
    exact foldStep_processed shouldParseDate dateCoerce c hP dateCoerce_idem
      df.cols df hc
  · intro s hs
    simp [dateCoerce, hs]

/-- C7 amended witness: the bad-date table. -/
theorem claim7_amended_witness :
    colVals (parse_date_columns badDateEx []).1 "GIFT_DTE"
      = (colVals badDateEx "GIFT_DTE").map (Option.map dateCoerce) :=
  claim7_amended_dates_coerce_silently.2.1 badDateEx [] "GIFT_DTE" (by decide)
    (by decide)

/-- C8: a column subjected to numeric coercion is element-wise coerced
(each value that fails to parse becomes null), and when any value was
non-missing before and missing after, a `"numeric_coercion"` message
naming the column and that exact count is recorded; cells already
missing before the coercion are never counted (the count predicate
requires `notNA` before). -/
theorem claim8_numeric_loss_counted (df : DF) (patterns : List String)
    (log : IssueLog) (c : String) (hc : c ∈ df.cols)
    (hm : shouldCoerceNumeric patterns c = true) :
    colVals (convert_numeric_columns df patterns log).1 c
      = (colVals df c).map (Option.map numCoerce)
    ∧ (0 < (colVals df c).countP
          (fun o => notNA o && !notNA (o.map numCoerce)) →
        coercionMsg c ((colVals df c).countP
          (fun o => notNA o && !notNA (o.map numCoerce)))
          ∈ bucket (convert_numeric_columns df patterns log).2
              "numeric_coercion") :=
  cncGo_spec patterns c hm df.cols df log hc

/-- C8 witness: an amount column with values `"N/A"`, `"12"` and a
missing cell loses exactly one value, and the logged message says so. -/
theorem claim8_witness :
    colVals (convert_numeric_columns lossyAmtEx ["AMT"] []).1 "GIFT_TRAN_AMT"
      = (colVals lossyAmtEx "GIFT_TRAN_AMT").map (Option.map numCoerce)
    ∧ coercionMsg "GIFT_TRAN_AMT" ((colVals lossyAmtEx "GIFT_TRAN_AMT").countP
        (fun o => notNA o && !notNA (o.map numCoerce)))
        ∈ bucket (convert_numeric_columns lossyAmtEx ["AMT"] []).2
            "numeric_coercion" := by
  have h := claim8_numeric_loss_counted lossyAmtEx ["AMT"] [] "GIFT_TRAN_AMT"
    (by decide) (by decide)
  exact ⟨h.1, h.2 (by decide)⟩

/-! ## The unattributable-row filters of the fact builder -/

theorem filterMissing_cols (df : DF) (c : String) :
    (filterMissing df c).1.cols = df.cols := by
  unfold filterMissing
  split <;> rfl

theorem filterMissing_sub (df : DF) (c : String) (r : Row)
    (h : r ∈ (filterMissing df c).1.rows) : r ∈ df.rows := by
  unfold filterMissing at h
  split at h
  · exact List.mem_of_mem_filter h
  · exact h

theorem filterMissing_keep (df : DF) (c : String) (hc : c ∈ df.cols)
    (r : Row) (h : r ∈ (filterMissing df c).1.rows) :
    keepPresent c r = true := by
  unfold filterMissing at h
  rw [if_pos hc] at h
  exact (List.mem_filter.mp h).2

theorem keepPresent_spec (c : String) (r : Row)
    (h : keepPresent c r = true) :
    ∃ v, Row.get r c = some v ∧ ¬ (v = Value.null) ∧ ¬ (v = Value.str "") := by
  unfold keepPresent at h
  cases hg : Row.get r c with
  | none => rw [hg] at h; exact Bool.noConfusion h
  | some v =>
    rw [hg] at h
    simp only [Bool.and_eq_true, Bool.not_eq_true', decide_eq_false_iff_not] at h
    refine ⟨v, rfl, ?_, h.2⟩
    intro he
    rw [he] at h
    exact Bool.noConfusion h.1

theorem build_fact_ok_shape (gt gm : DF) (log : IssueLog)
    (f : DF × IssueLog × List String)
    (h : build_fact_gift_transaction gt gm log = Except.ok f) :
    ∃ fact2 : DF,
      f.1 = (filterMissing (filterMissing fact2 "DONOR_ID").1 "GIFT_NUM").1 := by
  simp only [build_fact_gift_transaction] at h
  split at h
  · exact Except.noConfusion h
  · next fact2 heq =>
    injection h with h
    exact ⟨fact2, by rw [← h]⟩

/-- C3: the gift-transaction fact builder's output has no row with a
missing or empty donor identifier and no row with a missing or empty
gift number (whenever those columns exist in the built table); on the
ten-row example source with exactly two empty donor identifiers, the
output has exactly 8 rows and the builder prints exactly the line
"  Removed 2 rows with missing DONOR_ID". -/
theorem claim3_fact_filters_unattributable :
    (∀ (gt gm : DF) (log : IssueLog) (f : DF × IssueLog × List String),
      build_fact_gift_transaction gt gm log = Except.ok f →
      ∀ r ∈ f.1.rows,
        ("DONOR_ID" ∈ f.1.cols → ∃ v, Row.get r "DONOR_ID" = some v
          ∧ ¬ (v = Value.null) ∧ ¬ (v = Value.str ""))
        ∧ ("GIFT_NUM" ∈ f.1.cols → ∃ v, Row.get r "GIFT_NUM" = some v
          ∧ ¬ (v = Value.null) ∧ ¬ (v = Value.str "")))
    ∧ gtEx.rows.length = 10
    ∧ (build_fact_gift_transaction gtEx gmEx []).map
        (fun f => (f.1.rows.length, f.2.2))
        = Except.ok (8, [removedMsg 2 "DONOR_ID"])
    ∧ removedMsg 2 "DONOR_ID" = "  Removed 2 rows with missing DONOR_ID" := by
  refine ⟨?_, rfl, rfl, rfl⟩
  intro gt gm log f hok r hr
  obtain ⟨fact2, hshape⟩ := build_fact_ok_shape gt gm log f hok
  rw [hshape] at hr ⊢
  constructor
  · intro hD
    rw [filterMissing_cols, filterMissing_cols] at hD
    have hr1 : r ∈ (filterMissing fact2 "DONOR_ID").1.rows :=
      filterMissing_sub _ _ r hr
    exact keepPresent_spec _ r (filterMissing_keep fact2 "DONOR_ID" hD r hr1)
  · intro hG
    rw [filterMissing_cols, filterMissing_cols] at hG
    have hG' : "GIFT_NUM" ∈ (filterMissing fact2 "DONOR_ID").1.cols := by
      rw [filterMissing_cols]
      exact hG
    exact keepPresent_spec _ r (filterMissing_keep _ "GIFT_NUM" hG' r hr)

/-- C3 witness: applying the general filter property to the ten-row
example; the first retained row has a non-empty donor identifier. -/
theorem claim3_witness :
    ∃ v, Row.get (gtRow "1" "D1") "DONOR_ID" = some v
      ∧ ¬ (v = Value.null) ∧ ¬ (v = Value.str "") :=
  (claim3_fact_filters_unattributable.1 gtEx gmEx []
    (gtOutEx, [], [removedMsg 2 "DONOR_ID"]) rfl (gtRow "1" "D1")
    (by decide)).1 (by decide)

/-! ## Missing key columns in the dimension builders -/

theorem mergeLeft_ok_cols (left right : DF) (onKeys : List String)
    (suffix : String) (hl : ∀ k ∈ onKeys, k ∈ left.cols)
    (hr : ∀ k ∈ onKeys, k ∈ right.cols) :
    ∃ d, mergeLeft left right onKeys suffix = Except.ok d
      ∧ d.cols = left.cols
          ++ (right.cols.filter (fun c => !onKeys.contains c)).map
              (mergeRename left.cols suffix) := by
  unfold mergeLeft
  rw [if_pos]
  · exact ⟨_, rfl, rfl⟩
  · simp only [Bool.and_eq_true, List.all_eq_true, decide_eq_true_eq]
    exact ⟨hl, hr⟩

theorem constituentAlumni_ok (dim2 : DF) (am? : Option DF)
    (h : "ID_NUM" ∈ dim2.cols) :
    ∃ d, constituentAlumni dim2 am? = Except.ok d ∧ "ID_NUM" ∈ d.cols := by
  cases am? with
  | none => exact ⟨dim2, rfl, h⟩
  | some am =>
    simp only [constituentAlumni]
    by_cases ham : "ID_NUM" ∈ am.cols
    · rw [if_pos ham, if_pos h]
      exact ⟨_, rfl, List.mem_append_left _ h⟩
    · rw [if_neg ham]
      exact ⟨dim2, rfl, h⟩

/-- C9 counterexample: a solicitation source lacking its `SOLICIT_CDE`
key column makes `build_dim_solicitation` raise (the `drop_duplicates`
subset is missing), so the builder does fail on a missing key column. -/
theorem claim9_counterexample :
    "SOLICIT_CDE" ∉ solMissingEx.cols
    ∧ build_dim_solicitation solMissingEx
        = Except.error "KeyError: drop_duplicates subset" :=
  ⟨by decide, rfl⟩

/-- C9 amended: a missing non-key column is simply omitted from a
builder's output (the output columns are the present subset of the
projection list), and the gift-category builder never fails; but the
solicitation and campaign builders fail exactly when their key column is
absent, and the constituent builder requires `ID_NUM` in both of its
mandatory sources: it succeeds when both have it and fails with the merge
`KeyError` when either lacks it. -/
theorem claim9_amended_missing_columns :
    (∀ sd : DF,
      ("SOLICIT_CDE" ∈ sd.cols → ∃ d, build_dim_solicitation sd = Except.ok d
        ∧ d.cols = (["SOLICIT_CDE", "DESCRIPTION"]).filter
            (fun c => decide (c ∈ sd.cols)))
      ∧ ("SOLICIT_CDE" ∉ sd.cols → build_dim_solicitation sd
          = Except.error "KeyError: drop_duplicates subset"))
    ∧ (∀ (camp : DF) (log : IssueLog),
      ("CAMPAIGN_CDE" ∈ camp.cols → ∃ d, build_dim_campaign camp log
          = Except.ok d
        ∧ d.1.cols = campaign_cols_to_keep.filter
            (fun c => decide (c ∈ camp.cols)))
      ∧ ("CAMPAIGN_CDE" ∉ camp.cols → build_dim_campaign camp log
          = Except.error "KeyError: drop_duplicates subset"))
    ∧ (∀ gc : DF, (build_dim_gift_category gc).cols
        = gift_category_cols_to_keep.filter (fun c => decide (c ∈ gc.cols)))
    ∧ (∀ (nm dm : DF) (am? : Option DF) (log : IssueLog),
        ("ID_NUM" ∈ nm.cols → "ID_NUM" ∈ dm.cols →
          ∃ d, build_dim_constituent nm dm am? log = Except.ok d)
        ∧ ("ID_NUM" ∉ nm.cols ∨ "ID_NUM" ∉ dm.cols →
            build_dim_constituent nm dm am? log
              = Except.error "KeyError: merge on")) := by
  refine ⟨?_, ?_, ?_, ?_⟩
  · intro sd
    constructor
    · intro hs
      have hmem : "SOLICIT_CDE" ∈ (["SOLICIT_CDE", "DESCRIPTION"]).filter
          (fun c => decide (c ∈ sd.cols)) := by
        rw [List.mem_filter]
        exact ⟨by simp, by simpa using hs⟩
      unfold build_dim_solicitation drop_duplicates
      rw [if_pos]
      · exact ⟨_, rfl, rfl⟩
      · simp only [select, List.all_cons, List.all_nil, Bool.and_true,
          decide_eq_true_eq]
        exact hmem
    · intro hs
      unfold build_dim_solicitation drop_duplicates
      rw [if_neg]
      simp only [select, List.all_cons, List.all_nil, Bool.and_true,
        decide_eq_true_eq, List.mem_filter]
      intro hcon
      exact hs hcon.2
  · intro camp log
    have hcols : (convert_numeric_columns
        (select camp (campaign_cols_to_keep.filter
          (fun c => decide (c ∈ camp.cols))))
        ["AMT", "GOAL", "ACTUAL", "BUDGET", "PIECES"] log).1.cols
        = campaign_cols_to_keep.filter (fun c => decide (c ∈ camp.cols)) :=
      cncGo_cols _ _ _ _
    constructor
    · intro hcamp
      have hmem : "CAMPAIGN_CDE" ∈ campaign_cols_to_keep.filter
          (fun c => decide (c ∈ camp.cols)) := by
        rw [List.mem_filter]
        exact ⟨by decide, by simpa using hcamp⟩
      unfold build_dim_campaign drop_duplicates
      rw [if_pos]
      · refine ⟨_, rfl, ?_⟩
        show (dropDupTotal _ _).cols = _
        exact hcols
      · simp only [List.all_cons, List.all_nil, Bool.and_true,
          decide_eq_true_eq]
        rw [hcols]
        exact hmem
    · intro hcamp
      unfold build_dim_campaign drop_duplicates
      rw [if_neg]
      · rfl
      · simp only [List.all_cons, List.all_nil, Bool.and_true,
          decide_eq_true_eq]
        rw [hcols]
        rw [List.mem_filter]
        intro hcon
        exact hcamp (by simpa using hcon.2)
  · intro gc
    simp only [build_dim_gift_category]
    split <;> rfl
  · intro nm dm am? log
    refine ⟨?_, ?_⟩
    intro hnm hdm
    have hname : "ID_NUM" ∈ (select nm (constituent_name_cols.filter
        (fun c => decide (c ∈ nm.cols)))).cols := by
      show "ID_NUM" ∈ constituent_name_cols.filter
        (fun c => decide (c ∈ nm.cols))
      rw [List.mem_filter]
      exact ⟨by decide, by simpa using hnm⟩
    have hdonor : "ID_NUM" ∈ (convert_numeric_columns
        (select dm (donor_cols_to_keep.filter
          (fun c => decide (c ∈ dm.cols))))
        ["AMT", "YRS", "NUM", "SIZE"] log).1.cols := by
      rw [convert_numeric_cols]
      show "ID_NUM" ∈ donor_cols_to_keep.filter
        (fun c => decide (c ∈ dm.cols))
      rw [List.mem_filter]
      exact ⟨by decide, by simpa using hdm⟩
    obtain ⟨dim2, hm, hcols2⟩ := mergeLeft_ok_cols
      (select nm (constituent_name_cols.filter
        (fun c => decide (c ∈ nm.cols))))
      (convert_numeric_columns
        (select dm (donor_cols_to_keep.filter
          (fun c => decide (c ∈ dm.cols))))
        ["AMT", "YRS", "NUM", "SIZE"] log).1
      ["ID_NUM"] "_y"
      (fun k hk => by
        rcases List.mem_cons.mp hk with rfl | hk2
        · exact hname
        · exact absurd hk2 (by simp))
      (fun k hk => by
        rcases List.mem_cons.mp hk with rfl | hk2
        · exact hdonor
        · exact absurd hk2 (by simp))
    have hid2 : "ID_NUM" ∈ dim2.cols := by
      rw [hcols2]
      exact List.mem_append_left _ hname
    obtain ⟨d3, ha, hd3⟩ := constituentAlumni_ok dim2 am? hid2
    have hdd : drop_duplicates d3 ["ID_NUM"] = Except.ok
        (dropDupTotal d3 ["ID_NUM"]) := by
      unfold drop_duplicates
      rw [if_pos]
      simp only [List.all_cons, List.all_nil, Bool.and_true,
        decide_eq_true_eq]
      exact hd3
    unfold build_dim_constituent
    rw [hm]
    show ∃ d, ((constituentAlumni dim2 am?).bind
        (fun d => drop_duplicates d ["ID_NUM"])).map _ = Except.ok d
    rw [ha]
    show ∃ d, (drop_duplicates d3 ["ID_NUM"]).map _ = Except.ok d
    rw [hdd]
    exact ⟨_, rfl⟩
    intro hmiss
    have hc : ¬(((["ID_NUM"]).all (fun k => decide (k ∈ (select nm
          (constituent_name_cols.filter
            (fun c => decide (c ∈ nm.cols)))).cols))
        && (["ID_NUM"]).all (fun k => decide (k ∈ (convert_numeric_columns
          (select dm (donor_cols_to_keep.filter
            (fun c => decide (c ∈ dm.cols))))
          ["AMT", "YRS", "NUM", "SIZE"] log).1.cols))) = true) := by
      simp only [List.all_cons, List.all_nil, Bool.and_true,
        Bool.and_eq_true, decide_eq_true_eq]
      rintro ⟨h1, h2⟩
      rcases hmiss with h | h
      · apply h
        have h1' : "ID_NUM" ∈ constituent_name_cols.filter
            (fun c => decide (c ∈ nm.cols)) := h1
        simpa using (List.mem_filter.mp h1').2
      · apply h
        rw [convert_numeric_cols] at h2
        have h2' : "ID_NUM" ∈ donor_cols_to_keep.filter
            (fun c => decide (c ∈ dm.cols)) := h2
        simpa using (List.mem_filter.mp h2').2
    have hmerge : mergeLeft
        (select nm (constituent_name_cols.filter
          (fun c => decide (c ∈ nm.cols))))
        (convert_numeric_columns
          (select dm (donor_cols_to_keep.filter
            (fun c => decide (c ∈ dm.cols))))
          ["AMT", "YRS", "NUM", "SIZE"] log).1
        ["ID_NUM"] "_y" = Except.error "KeyError: merge on" := by
      unfold mergeLeft
      rw [if_neg hc]
    unfold build_dim_constituent
    rw [hmerge]
    rfl

/-- C9 amended witness: the key-present solicitation builder succeeds on
the deduplicated campaign example's shape, and the key-absent one on
`solMissingEx` fails. -/
theorem claim9_amended_witness :
    ∃ d, build_dim_solicitation solOneEx = Except.ok d
      ∧ d.cols = (["SOLICIT_CDE", "DESCRIPTION"]).filter
          (fun c => decide (c ∈ solOneEx.cols)) :=
  (claim9_amended_missing_columns.1 solOneEx).1 (by decide)

/-- C5 amended witness: the partial-key table deduplicated on the present
subset of the `gift_master` key. -/
theorem claim5_amended_witness :
    (deduplicate_by_key partialKeyEx ["GIFT_GROUP_NUM", "GIFT_NUM"]).rows.Pairwise
      (fun a b =>
        keyProj ((["GIFT_GROUP_NUM", "GIFT_NUM"]).filter
          (fun c => decide (c ∈ partialKeyEx.cols))) a
          ≠ keyProj ((["GIFT_GROUP_NUM", "GIFT_NUM"]).filter
            (fun c => decide (c ∈ partialKeyEx.cols))) b) :=
  (claim5_amended_partial_key.2 partialKeyEx ["GIFT_GROUP_NUM", "GIFT_NUM"]
    (by decide)).1

end AdvClean
